import Mathlib

/-!
Verification of the Game-Of-Life engine (grid.cpp / world.cpp / zoo.cpp).

The C++ code is shallowly embedded: a Grid is its two integer dimensions
plus a total cell-valuation function (the source stores the cells in a
std::vector of std::vector of Cell indexed cells[x][y]; all reachable
grids keep every inner vector at length height, so the observable content
is exactly a function from coordinates to cells together with the two
sizes).  Loops become folds over List.range in the same iteration order
as the source, machine integers become Nat or Int with explicit wrapping
where the source truncates, and functions that throw become Option-valued
(none models a thrown exception).
-/

/-- The two-valued cell state from grid.h. -/
inductive Cell where
  | DEAD : Cell
  | ALIVE : Cell
deriving DecidableEq

export Cell (DEAD ALIVE)

/-- A Grid: the width and height members of the C++ class together with
the cell contents of the backing vector-of-vectors, as a total function
(coordinates outside the bounds are never read by any embedded operation
except where the source itself reads them). -/
structure Grid where
  width : Nat
  height : Nat
  cells : Nat → Nat → Cell

/-- Grid::Grid(width, height): all cells DEAD.  The C++ constructor takes
ints and throws std::length_error from the vector constructor for negative
sizes; every construction exercised below uses non-negative sizes, so the
embedding takes Nat. -/
def Grid.ofSize (w h : Nat) : Grid :=
  { width := w, height := h, cells := fun _ _ => DEAD }

/-- Raw vector access grid[x][y] (no bounds check), as used inside the
merge loops and the codec loops after their own bound reasoning. -/
def Grid.cellAt (g : Grid) (x y : Nat) : Cell :=
  g.cells x y

/-- Raw vector write grid[x][y] = v (no bounds check). -/
def Grid.setCell (g : Grid) (x y : Nat) (v : Cell) : Grid :=
  { g with cells := fun a b => if a = x ∧ b = y then v else g.cells a b }

/-- Grid::get(x, y): bounds-checked read; none models the thrown
std::invalid_argument.  The source compares x against grid.size() and y
against grid[0].size(), which for every reachable grid equal the width
and height members. -/
def Grid.get (g : Grid) (x y : Nat) : Option Cell :=
  if x < g.width ∧ y < g.height then some (g.cells x y) else none

/-- Grid::set(x, y, value): bounds-checked write.  The source throws
std::invalid_argument out of bounds; every call site embedded below is
in bounds, so the out-of-bounds branch (returning the grid unchanged
here) is never reached under the hypotheses of the theorems. -/
def Grid.set (g : Grid) (x y : Nat) (v : Cell) : Grid :=
  if x < g.width ∧ y < g.height then g.setCell x y v else g

@[simp] theorem Grid.width_setCell (g : Grid) (x y : Nat) (v : Cell) :
    (g.setCell x y v).width = g.width := rfl

@[simp] theorem Grid.height_setCell (g : Grid) (x y : Nat) (v : Cell) :
    (g.setCell x y v).height = g.height := rfl

theorem Grid.cellAt_setCell_self (g : Grid) (x y : Nat) (v : Cell) :
    (g.setCell x y v).cellAt x y = v := by
  simp [Grid.setCell, Grid.cellAt]

theorem Grid.cellAt_setCell_of_ne (g : Grid) (x y a b : Nat) (v : Cell)
    (h : ¬(a = x ∧ b = y)) : (g.setCell x y v).cellAt a b = g.cellAt a b := by
  simp [Grid.setCell, Grid.cellAt, h]

@[simp] theorem Grid.width_set (g : Grid) (x y : Nat) (v : Cell) :
    (g.set x y v).width = g.width := by
  unfold Grid.set; split <;> rfl

@[simp] theorem Grid.height_set (g : Grid) (x y : Nat) (v : Cell) :
    (g.set x y v).height = g.height := by
  unfold Grid.set; split <;> rfl

theorem Grid.cellAt_set_self (g : Grid) (x y : Nat) (v : Cell)
    (hx : x < g.width) (hy : y < g.height) :
    (g.set x y v).cellAt x y = v := by
  unfold Grid.set
  rw [if_pos ⟨hx, hy⟩]
  exact Grid.cellAt_setCell_self g x y v

theorem Grid.cellAt_set_of_ne (g : Grid) (x y a b : Nat) (v : Cell)
    (h : ¬(a = x ∧ b = y)) : (g.set x y v).cellAt a b = g.cellAt a b := by
  unfold Grid.set
  split
  · exact Grid.cellAt_setCell_of_ne g x y a b v h
  · rfl

/-!
Generic machinery for the write loops.  Every cell-mutating loop in the
source iterates an index over a half-open range and performs writes whose
target cell is determined by the index; the lemmas below characterise the
cell contents after such a fold.  P is an invariant (used to carry the
dimension facts that make the bounds-checked writes act).
-/

theorem foldl_range_pres (f : Nat → Grid → Grid) (P : Grid → Prop)
    (hpres : ∀ i g, P g → P (f i g)) :
    ∀ (n : Nat) (g : Grid), P g → P ((List.range n).foldl (fun g i => f i g) g) := by
  intro n
  induction n with
  | zero => intro g hg; simpa using hg
  | succ m ih =>
    intro g hg
    rw [List.range_succ, List.foldl_append]
    exact hpres m _ (ih g hg)

theorem foldl_range_untouched (f : Nat → Grid → Grid) (P : Grid → Prop)
    (a b : Nat)
    (hpres : ∀ i g, P g → P (f i g))
    (n : Nat)
    (hunt : ∀ i, i < n → ∀ g, P g → (f i g).cellAt a b = g.cellAt a b) :
    ∀ (g : Grid), P g →
      ((List.range n).foldl (fun g i => f i g) g).cellAt a b = g.cellAt a b := by
  induction n with
  | zero => intro g _; simp
  | succ m ih =>
    intro g hg
    rw [List.range_succ, List.foldl_append]
    rw [List.foldl_cons, List.foldl_nil]
    rw [hunt m (Nat.lt_succ_self m) _ (foldl_range_pres f P hpres m g hg)]
    exact ih (fun i hi => hunt i (Nat.lt_succ_of_lt hi)) g hg

/-- After folding the writes for indices 0..n-1, the cell (a, b) — touched
only by iteration i0, whose effect on that cell is V of its old value —
holds V applied to the starting value. -/
theorem foldl_range_write (f : Nat → Grid → Grid) (P : Grid → Prop)
    (a b : Nat) (V : Cell → Cell)
    (hpres : ∀ i g, P g → P (f i g))
    (n i0 : Nat) (hi : i0 < n)
    (hunt : ∀ i, i ≠ i0 → ∀ g, P g → (f i g).cellAt a b = g.cellAt a b)
    (hval : ∀ g, P g → (f i0 g).cellAt a b = V (g.cellAt a b)) :
    ∀ (g : Grid), P g →
      ((List.range n).foldl (fun g i => f i g) g).cellAt a b = V (g.cellAt a b) := by
  induction n with
  | zero => omega
  | succ m ih =>
    intro g hg
    rw [List.range_succ, List.foldl_append, List.foldl_cons, List.foldl_nil]
    rcases Nat.lt_succ_iff_lt_or_eq.mp hi with hlt | heq
    · have hm : m ≠ i0 := by omega
      rw [hunt m hm _ (foldl_range_pres f P hpres m g hg)]
      exact ih hlt g hg
    · subst heq
      rw [hval _ (foldl_range_pres f P hpres i0 g hg)]
      rw [foldl_range_untouched f P a b hpres i0
        (fun i hilt => hunt i (by omega)) g hg]

/-- Grid::resize(width, height): allocates a fresh all-DEAD backing store
of the target size (gridTemp), copies the old contents over the region
bounded by stopWidth and stopHeight, and installs it together with the new
width and height members.  The C++ takes ints; negative sizes throw from
the vector constructor and are not exercised by any claim. -/
def Grid.resize (g : Grid) (w h : Nat) : Grid :=
  let stopWidth := min w g.width
  let stopHeight := min h g.height
  (List.range stopWidth).foldl (fun t x =>
    (List.range stopHeight).foldl (fun t y => t.setCell x y (g.cellAt x y)) t)
    (Grid.ofSize w h)

theorem Grid.dims_resize (g : Grid) (w h : Nat) :
    (g.resize w h).width = w ∧ (g.resize w h).height = h := by
  unfold Grid.resize
  refine foldl_range_pres _ (fun t => t.width = w ∧ t.height = h) ?_ _ _ ⟨rfl, rfl⟩
  intro x t ht
  refine foldl_range_pres _ (fun t => t.width = w ∧ t.height = h) ?_ _ _ ht
  intro y t ht
  simpa using ht

theorem Grid.cellAt_resize (g : Grid) (w h a b : Nat) :
    (g.resize w h).cellAt a b =
      if a < min w g.width ∧ b < min h g.height then g.cellAt a b else DEAD := by
  unfold Grid.resize
  by_cases hab : a < min w g.width ∧ b < min h g.height
  · rw [if_pos hab]
    have := foldl_range_write
      (fun x t => (List.range (min h g.height)).foldl
        (fun t y => t.setCell x y (g.cellAt x y)) t)
      (fun _ => True) a b (fun _ => g.cellAt a b)
      (fun _ _ _ => trivial) (min w g.width) a hab.1 ?_ ?_ (Grid.ofSize w h) trivial
    · exact this
    · intro x hx t _
      refine foldl_range_untouched _ (fun _ => True) a b (fun _ _ _ => trivial) _ ?_ t trivial
      intro y _ t' _
      exact t'.cellAt_setCell_of_ne x y a b _ (by tauto)
    · intro t _
      have := foldl_range_write (fun y (t : Grid) => t.setCell a y (g.cellAt a y))
        (fun _ => True) a b (fun _ => g.cellAt a b)
        (fun _ _ _ => trivial) (min h g.height) b hab.2 ?_ ?_ t trivial
      · exact this
      · intro y hy t' _
        exact t'.cellAt_setCell_of_ne a y a b _ (by tauto)
      · intro t' _
        exact t'.cellAt_setCell_self a b _
  · rw [if_neg hab]
    have huntouched :
        ∀ x, x < min w g.width → ∀ t : Grid, True →
          ((List.range (min h g.height)).foldl
            (fun t y => t.setCell x y (g.cellAt x y)) t).cellAt a b = t.cellAt a b := by
      intro x hx t _
      refine foldl_range_untouched _ (fun _ => True) a b (fun _ _ _ => trivial) _ ?_ t trivial
      intro y hy t' _
      refine t'.cellAt_setCell_of_ne x y a b _ ?_
      rintro ⟨rfl, rfl⟩
      exact hab ⟨hx, hy⟩
    exact foldl_range_untouched _ (fun _ => True) a b (fun _ _ _ => trivial) _
      huntouched (Grid.ofSize w h) trivial

/-- Grid::merge(other, x0, y0, alive_only): overlays other at (x0, y0);
none models the two thrown std::invalid_argument checks.  In the
alive-only branch a target cell is overwritten only when it is currently
DEAD; otherwise every target cell is overwritten.  The writes are the
source's unchecked vector writes. -/
def Grid.merge (g other : Grid) (x0 y0 : Int) (alive_only : Bool) : Option Grid :=
  if x0 < 0 ∨ y0 < 0 then none
  else if x0 + (other.width : Int) > (g.width : Int) ∨
      y0 + (other.height : Int) > (g.height : Int) then none
  else some (
    if alive_only then
      (List.range other.width).foldl (fun t i =>
        (List.range other.height).foldl (fun t j =>
          if t.cellAt (x0.toNat + i) (y0.toNat + j) = DEAD then
            t.setCell (x0.toNat + i) (y0.toNat + j) (other.cellAt i j)
          else t) t) g
    else
      (List.range other.width).foldl (fun t i =>
        (List.range other.height).foldl (fun t j =>
          t.setCell (x0.toNat + i) (y0.toNat + j) (other.cellAt i j)) t) g)

/-- Modelled from the spec: Grid::rotate is declared in grid.h but its
implementation in grid.cpp is commented out, so the missing body is taken
from spec section 4.1.  One clockwise quarter turn: the new grid is
height-by-width and, as in the worked example of the original
documentation, a 1x3 grid becomes 3x1 with the bottom-left source cell
becoming the top-left destination cell. -/
def Grid.rotateOnce (g : Grid) : Grid :=
  { width := g.height, height := g.width,
    cells := fun x y => g.cells y (g.height - 1 - x) }

/-- Modelled from the spec: rotate(rotation) reduces the arbitrary integer
rotation modulo 4 (true non-negative modulo, so cost is independent of the
magnitude) and applies that many clockwise quarter turns. -/
def Grid.rotate (g : Grid) (rotation : Int) : Grid :=
  Grid.rotateOnce^[(rotation % 4).toNat] g

/-- The free helper from world.cpp: true (non-negative) modulo, written
with the C++ truncating remainder operator (Int.tmod). -/
def mod (a b : Int) : Int :=
  ((a.tmod b) + b).tmod b

/-- A World: the two Grid members from world.h. -/
structure World where
  currentState : Grid
  nextState : Grid

/-- World::World(width, height): both buffers are fresh all-DEAD grids. -/
def World.ofSize (w h : Nat) : World :=
  { currentState := Grid.ofSize w h, nextState := Grid.ofSize w h }

/-- World::World(initial_state): both buffers hold the initial grid. -/
def World.ofGrid (initial_state : Grid) : World :=
  { currentState := initial_state, nextState := initial_state }

/-- World::resize(new_width, new_height): the source resizes only
currentState; nextState is left untouched. -/
def World.resize (w : World) (new_width new_height : Nat) : World :=
  { w with currentState := w.currentState.resize new_width new_height }

/-- World::count_neighbours(x, y, toroidal).  The member function reads
only the currentState grid, so it is embedded as a function of that grid.
The eight guarded reads appear in the source's order; each read is the
bounds-checked Grid::get, which succeeds under the guard. -/
def World.count_neighbours (cur : Grid) (x y : Nat) (toroidal : Bool) : Nat :=
  if toroidal = false then
    (if 0 < x ∧ cur.get (x - 1) y = some ALIVE then 1 else 0) +
    (if x < cur.width - 1 ∧ cur.get (x + 1) y = some ALIVE then 1 else 0) +
    (if 0 < y ∧ cur.get x (y - 1) = some ALIVE then 1 else 0) +
    (if y < cur.height - 1 ∧ cur.get x (y + 1) = some ALIVE then 1 else 0) +
    (if 0 < x ∧ y < cur.height - 1 ∧ cur.get (x - 1) (y + 1) = some ALIVE then 1 else 0) +
    (if x < cur.width - 1 ∧ y < cur.height - 1 ∧ cur.get (x + 1) (y + 1) = some ALIVE then 1 else 0) +
    (if 0 < x ∧ 0 < y ∧ cur.get (x - 1) (y - 1) = some ALIVE then 1 else 0) +
    (if x < cur.width - 1 ∧ 0 < y ∧ cur.get (x + 1) (y - 1) = some ALIVE then 1 else 0)
  else
    (if cur.get (mod ((x : Int) - 1) (cur.width : Int)).toNat y = some ALIVE then 1 else 0) +
    (if cur.get (mod ((x : Int) + 1) (cur.width : Int)).toNat y = some ALIVE then 1 else 0) +
    (if cur.get x (mod ((y : Int) - 1) (cur.height : Int)).toNat = some ALIVE then 1 else 0) +
    (if cur.get x (mod ((y : Int) + 1) (cur.height : Int)).toNat = some ALIVE then 1 else 0) +
    (if cur.get (mod ((x : Int) - 1) (cur.width : Int)).toNat
        (mod ((y : Int) - 1) (cur.height : Int)).toNat = some ALIVE then 1 else 0) +
    (if cur.get (mod ((x : Int) + 1) (cur.width : Int)).toNat
        (mod ((y : Int) - 1) (cur.height : Int)).toNat = some ALIVE then 1 else 0) +
    (if cur.get (mod ((x : Int) - 1) (cur.width : Int)).toNat
        (mod ((y : Int) + 1) (cur.height : Int)).toNat = some ALIVE then 1 else 0) +
    (if cur.get (mod ((x : Int) + 1) (cur.width : Int)).toNat
        (mod ((y : Int) + 1) (cur.height : Int)).toNat = some ALIVE then 1 else 0)

/-- The body of World::step's double loop for one cell: the four
independent conditional writes to nextState, in source order (all four
conditions read only currentState, so at most one fires). -/
def World.updateCell (cur : Grid) (toroidal : Bool) (x y : Nat) (g : Grid) : Grid :=
  let numNeighbours := World.count_neighbours cur x y toroidal
  let g1 := if cur.get x y = some ALIVE ∧ numNeighbours < 2 then g.set x y DEAD else g
  let g2 := if cur.get x y = some ALIVE ∧ (numNeighbours = 2 ∨ numNeighbours = 3)
    then g1.set x y ALIVE else g1
  let g3 := if cur.get x y = some ALIVE ∧ 3 < numNeighbours then g2.set x y DEAD else g2
  if cur.get x y = some DEAD ∧ numNeighbours = 3 then g3.set x y ALIVE else g3

/-- World::step(toroidal): for each cell of currentState (y outer, x
inner) apply the transition writes to nextState, then execute the final
assignment currentState = nextState — a buffer copy in the source, after
which both members hold the newly computed generation. -/
def World.step (w : World) (toroidal : Bool) : World :=
  let cur := w.currentState
  let nxt := (List.range cur.height).foldl (fun g y =>
    (List.range cur.width).foldl (fun g x => World.updateCell cur toroidal x y g) g)
    w.nextState
  { currentState := nxt, nextState := nxt }

/-- The loop of World::advance: for (int i = 0; i < steps; i++) step. -/
def World.advanceAux (w : World) (i steps : Int) (toroidal : Bool) : World :=
  if _h : i < steps then World.advanceAux (w.step toroidal) (i + 1) steps toroidal else w
termination_by (steps - i).toNat
decreasing_by omega

/-- World::advance(steps, toroidal). -/
def World.advance (w : World) (steps : Int) (toroidal : Bool) : World :=
  World.advanceAux w 0 steps toroidal

/-- Worlds reachable by construction (from dimensions or from an initial
grid) followed by any sequence of step calls, with no resize. -/
inductive Reachable : World → Prop where
  | ofSize (w h : Nat) : Reachable (World.ofSize w h)
  | ofGrid (g : Grid) : Reachable (World.ofGrid g)
  | step (w : World) (t : Bool) : Reachable w → Reachable (w.step t)

/-- Every reachable world has its two buffers equal: the constructors
initialise both identically, and step's final assignment copies the
computed buffer into both. -/
theorem Reachable.next_eq {w : World} (h : Reachable w) :
    w.nextState = w.currentState := by
  induction h with
  | ofSize w h => rfl
  | ofGrid g => rfl
  | step w t _ _ => rfl

/-- The modulo helper agrees with Lean's non-negative (Euclidean) modulo
for a positive modulus. -/
theorem mod_eq_emod (a b : Int) (hb : 0 < b) : mod a b = a % b := by
  unfold mod
  have hlow : -b ≤ a.tmod b := by
    cases a with
    | ofNat m =>
      rw [Int.ofNat_eq_coe]
      have h2 := Int.tmod_nonneg b (Int.ofNat_nonneg m)
      omega
    | negSucc m =>
      cases b with
      | ofNat n =>
        rw [Int.ofNat_eq_coe] at hb ⊢
        have hn : 0 < n := by exact_mod_cast hb
        have hml : (m + 1) % n < n := Nat.mod_lt _ hn
        have ht : (Int.negSucc m).tmod ((n : Nat) : Int) =
            -(((m + 1) % n : Nat) : Int) := rfl
        rw [ht]
        omega
      | negSucc n => cases hb
  have ht : (a.tmod b + b).tmod b = (a.tmod b + b) % b :=
    Int.tmod_eq_emod (by omega) (by omega)
  rw [ht]
  have h4 := Int.tmod_add_tdiv a b
  conv_rhs => rw [← h4]
  rw [Int.add_mul_emod_self_left]
  conv_lhs => rw [show a.tmod b + b = a.tmod b + b * 1 by ring]
  rw [Int.add_mul_emod_self_left]

theorem Grid.get_eq_some_alive (g : Grid) (x y : Nat)
    (hx : x < g.width) (hy : y < g.height) :
    (g.get x y = some ALIVE) ↔ g.cellAt x y = ALIVE := by
  unfold Grid.get Grid.cellAt
  rw [if_pos ⟨hx, hy⟩]
  exact ⟨fun h => Option.some.inj h, fun h => by rw [h]⟩

theorem emod_toNat_lt (a : Int) (w : Nat) (hw : 0 < w) :
    (a % (w : Int)).toNat < w := by
  have h1 : 0 ≤ a % (w : Int) := Int.emod_nonneg a (by omega)
  have h2 : a % (w : Int) < (w : Int) := Int.emod_lt_of_pos a (by exact_mod_cast hw)
  omega

/-- Claim-side definition: the contribution of the neighbour at offset
(dx, dy) to the neighbour count, as the specification words it.  In
non-toroidal mode a coordinate outside the bounds contributes 0; in
toroidal mode each neighbour coordinate wraps by true non-negative modulo
on the width and the height. -/
def specContrib (g : Grid) (toroidal : Bool) (x y : Nat) (dx dy : Int) : Nat :=
  if toroidal then
    if g.cellAt (((x : Int) + dx) % (g.width : Int)).toNat
        (((y : Int) + dy) % (g.height : Int)).toNat = ALIVE then 1 else 0
  else
    if 0 ≤ (x : Int) + dx ∧ (x : Int) + dx < (g.width : Int) ∧
        0 ≤ (y : Int) + dy ∧ (y : Int) + dy < (g.height : Int) ∧
        g.cellAt ((x : Int) + dx).toNat ((y : Int) + dy).toNat = ALIVE
    then 1 else 0

/-- Claim-side definition: the number of ALIVE cells among the 8 cells of
the 3x3 neighbourhood of (x, y), excluding the centre — the offsets below
are exactly the 8 pairs in {-1,0,1} x {-1,0,1} minus (0,0). -/
def specNeighbours (g : Grid) (x y : Nat) (toroidal : Bool) : Nat :=
  specContrib g toroidal x y (-1) 0 + specContrib g toroidal x y 1 0 +
  specContrib g toroidal x y 0 (-1) + specContrib g toroidal x y 0 1 +
  specContrib g toroidal x y (-1) 1 + specContrib g toroidal x y 1 1 +
  specContrib g toroidal x y (-1) (-1) + specContrib g toroidal x y 1 (-1)

/-- Claim-side definition: the Conway transition for one cell.  An ALIVE
cell with fewer than 2 or more than 3 ALIVE neighbours becomes DEAD, an
ALIVE cell with 2 or 3 stays ALIVE, a DEAD cell with exactly 3 becomes
ALIVE, and every other cell keeps its current value. -/
def specTransition (g : Grid) (x y : Nat) (toroidal : Bool) : Cell :=
  let n := specNeighbours g x y toroidal
  match g.cellAt x y with
  | ALIVE => if n < 2 then DEAD else if n ≤ 3 then ALIVE else DEAD
  | DEAD => if n = 3 then ALIVE else DEAD

/-- The source's neighbour count coincides with the claim-side neighbour
count at every in-bounds cell. -/
theorem count_neighbours_eq_spec (g : Grid) (x y : Nat) (t : Bool)
    (hx : x < g.width) (hy : y < g.height) :
    World.count_neighbours g x y t = specNeighbours g x y t := by
  have hw0 : 0 < g.width := by omega
  have hh0 : 0 < g.height := by omega
  have hwI : (0 : Int) < (g.width : Int) := by exact_mod_cast hw0
  have hhI : (0 : Int) < (g.height : Int) := by exact_mod_cast hh0
  cases t with
  | false =>
    have e1 : specContrib g false x y (-1) 0 =
        (if 0 < x ∧ g.get (x - 1) y = some ALIVE then 1 else 0) := by
      unfold specContrib
      simp only [Bool.false_eq_true, if_false]
      refine if_congr ?_ rfl rfl
      constructor
      · rintro ⟨h1, h2, _, _, h5⟩
        refine ⟨by omega, (g.get_eq_some_alive _ _ (by omega) hy).mpr ?_⟩
        rwa [show ((x : Int) + -1).toNat = x - 1 by omega,
          show ((y : Int) + 0).toNat = y by omega] at h5
      · rintro ⟨h1, h2⟩
        have h5 := (g.get_eq_some_alive _ _ (by omega) hy).mp h2
        refine ⟨by omega, by omega, by omega, by omega, ?_⟩
        rwa [show ((x : Int) + -1).toNat = x - 1 by omega,
          show ((y : Int) + 0).toNat = y by omega]
    have e2 : specContrib g false x y 1 0 =
        (if x < g.width - 1 ∧ g.get (x + 1) y = some ALIVE then 1 else 0) := by
      unfold specContrib
      simp only [Bool.false_eq_true, if_false]
      refine if_congr ?_ rfl rfl
      constructor
      · rintro ⟨h1, h2, _, _, h5⟩
        refine ⟨by omega, (g.get_eq_some_alive _ _ (by omega) hy).mpr ?_⟩
        rwa [show ((x : Int) + 1).toNat = x + 1 by omega,
          show ((y : Int) + 0).toNat = y by omega] at h5
      · rintro ⟨h1, h2⟩
        have h5 := (g.get_eq_some_alive _ _ (by omega) hy).mp h2
        refine ⟨by omega, by omega, by omega, by omega, ?_⟩
        rwa [show ((x : Int) + 1).toNat = x + 1 by omega,
          show ((y : Int) + 0).toNat = y by omega]
    have e3 : specContrib g false x y 0 (-1) =
        (if 0 < y ∧ g.get x (y - 1) = some ALIVE then 1 else 0) := by
      unfold specContrib
      simp only [Bool.false_eq_true, if_false]
      refine if_congr ?_ rfl rfl
      constructor
      · rintro ⟨_, _, h3, h4, h5⟩
        refine ⟨by omega, (g.get_eq_some_alive _ _ hx (by omega)).mpr ?_⟩
        rwa [show ((x : Int) + 0).toNat = x by omega,
          show ((y : Int) + -1).toNat = y - 1 by omega] at h5
      · rintro ⟨h1, h2⟩
        have h5 := (g.get_eq_some_alive _ _ hx (by omega)).mp h2
        refine ⟨by omega, by omega, by omega, by omega, ?_⟩
        rwa [show ((x : Int) + 0).toNat = x by omega,
          show ((y : Int) + -1).toNat = y - 1 by omega]
    have e4 : specContrib g false x y 0 1 =
        (if y < g.height - 1 ∧ g.get x (y + 1) = some ALIVE then 1 else 0) := by
      unfold specContrib
      simp only [Bool.false_eq_true, if_false]
      refine if_congr ?_ rfl rfl
      constructor
      · rintro ⟨_, _, h3, h4, h5⟩
        refine ⟨by omega, (g.get_eq_some_alive _ _ hx (by omega)).mpr ?_⟩
        rwa [show ((x : Int) + 0).toNat = x by omega,
          show ((y : Int) + 1).toNat = y + 1 by omega] at h5
      · rintro ⟨h1, h2⟩
        have h5 := (g.get_eq_some_alive _ _ hx (by omega)).mp h2
        refine ⟨by omega, by omega, by omega, by omega, ?_⟩
        rwa [show ((x : Int) + 0).toNat = x by omega,
          show ((y : Int) + 1).toNat = y + 1 by omega]
    have e5 : specContrib g false x y (-1) 1 =
        (if 0 < x ∧ y < g.height - 1 ∧ g.get (x - 1) (y + 1) = some ALIVE
          then 1 else 0) := by
      unfold specContrib
      simp only [Bool.false_eq_true, if_false]
      refine if_congr ?_ rfl rfl
      constructor
      · rintro ⟨h1, h2, h3, h4, h5⟩
        refine ⟨by omega, by omega,
          (g.get_eq_some_alive _ _ (by omega) (by omega)).mpr ?_⟩
        rwa [show ((x : Int) + -1).toNat = x - 1 by omega,
          show ((y : Int) + 1).toNat = y + 1 by omega] at h5
      · rintro ⟨h1, h2, h3⟩
        have h5 := (g.get_eq_some_alive _ _ (by omega) (by omega)).mp h3
        refine ⟨by omega, by omega, by omega, by omega, ?_⟩
        rwa [show ((x : Int) + -1).toNat = x - 1 by omega,
          show ((y : Int) + 1).toNat = y + 1 by omega]
    have e6 : specContrib g false x y 1 1 =
        (if x < g.width - 1 ∧ y < g.height - 1 ∧ g.get (x + 1) (y + 1) = some ALIVE
          then 1 else 0) := by
      unfold specContrib
      simp only [Bool.false_eq_true, if_false]
      refine if_congr ?_ rfl rfl
      constructor
      · rintro ⟨h1, h2, h3, h4, h5⟩
        refine ⟨by omega, by omega,
          (g.get_eq_some_alive _ _ (by omega) (by omega)).mpr ?_⟩
        rwa [show ((x : Int) + 1).toNat = x + 1 by omega,
          show ((y : Int) + 1).toNat = y + 1 by omega] at h5
      · rintro ⟨h1, h2, h3⟩
        have h5 := (g.get_eq_some_alive _ _ (by omega) (by omega)).mp h3
        refine ⟨by omega, by omega, by omega, by omega, ?_⟩
        rwa [show ((x : Int) + 1).toNat = x + 1 by omega,
          show ((y : Int) + 1).toNat = y + 1 by omega]
    have e7 : specContrib g false x y (-1) (-1) =
        (if 0 < x ∧ 0 < y ∧ g.get (x - 1) (y - 1) = some ALIVE then 1 else 0) := by
      unfold specContrib
      simp only [Bool.false_eq_true, if_false]
      refine if_congr ?_ rfl rfl
      constructor
      · rintro ⟨h1, h2, h3, h4, h5⟩
        refine ⟨by omega, by omega,
          (g.get_eq_some_alive _ _ (by omega) (by omega)).mpr ?_⟩
        rwa [show ((x : Int) + -1).toNat = x - 1 by omega,
          show ((y : Int) + -1).toNat = y - 1 by omega] at h5
      · rintro ⟨h1, h2, h3⟩
        have h5 := (g.get_eq_some_alive _ _ (by omega) (by omega)).mp h3
        refine ⟨by omega, by omega, by omega, by omega, ?_⟩
        rwa [show ((x : Int) + -1).toNat = x - 1 by omega,
          show ((y : Int) + -1).toNat = y - 1 by omega]
    have e8 : specContrib g false x y 1 (-1) =
        (if x < g.width - 1 ∧ 0 < y ∧ g.get (x + 1) (y - 1) = some ALIVE
          then 1 else 0) := by
      unfold specContrib
      simp only [Bool.false_eq_true, if_false]
      refine if_congr ?_ rfl rfl
      constructor
      · rintro ⟨h1, h2, h3, h4, h5⟩
        refine ⟨by omega, by omega,
          (g.get_eq_some_alive _ _ (by omega) (by omega)).mpr ?_⟩
        rwa [show ((x : Int) + 1).toNat = x + 1 by omega,
          show ((y : Int) + -1).toNat = y - 1 by omega] at h5
      · rintro ⟨h1, h2, h3⟩
        have h5 := (g.get_eq_some_alive _ _ (by omega) (by omega)).mp h3
        refine ⟨by omega, by omega, by omega, by omega, ?_⟩
        rwa [show ((x : Int) + 1).toNat = x + 1 by omega,
          show ((y : Int) + -1).toNat = y - 1 by omega]
    unfold World.count_neighbours specNeighbours
    rw [if_pos rfl, e1, e2, e3, e4, e5, e6, e7, e8]
  | true =>
    have hy0 : (((y : Int) + 0) % (g.height : Int)).toNat = y := by
      rw [add_zero, Int.emod_eq_of_lt (by omega) (by omega)]
      omega
    have hx0 : (((x : Int) + 0) % (g.width : Int)).toNat = x := by
      rw [add_zero, Int.emod_eq_of_lt (by omega) (by omega)]
      omega
    have sx : (x : Int) - 1 = (x : Int) + -1 := by ring
    have sy : (y : Int) - 1 = (y : Int) + -1 := by ring
    have e1 : specContrib g true x y (-1) 0 =
        (if g.get (mod ((x : Int) - 1) (g.width : Int)).toNat y = some ALIVE
          then 1 else 0) := by
      unfold specContrib
      rw [if_pos rfl, sx, mod_eq_emod _ _ hwI]
      refine if_congr ?_ rfl rfl
      rw [g.get_eq_some_alive _ _ (emod_toNat_lt _ _ hw0) hy, hy0]
    have e2 : specContrib g true x y 1 0 =
        (if g.get (mod ((x : Int) + 1) (g.width : Int)).toNat y = some ALIVE
          then 1 else 0) := by
      unfold specContrib
      rw [if_pos rfl, mod_eq_emod _ _ hwI]
      refine if_congr ?_ rfl rfl
      rw [g.get_eq_some_alive _ _ (emod_toNat_lt _ _ hw0) hy, hy0]
    have e3 : specContrib g true x y 0 (-1) =
        (if g.get x (mod ((y : Int) - 1) (g.height : Int)).toNat = some ALIVE
          then 1 else 0) := by
      unfold specContrib
      rw [if_pos rfl, sy, mod_eq_emod _ _ hhI]
      refine if_congr ?_ rfl rfl
      rw [hx0, g.get_eq_some_alive _ _ hx (emod_toNat_lt _ _ hh0)]
    have e4 : specContrib g true x y 0 1 =
        (if g.get x (mod ((y : Int) + 1) (g.height : Int)).toNat = some ALIVE
          then 1 else 0) := by
      unfold specContrib
      rw [if_pos rfl, mod_eq_emod _ _ hhI]
      refine if_congr ?_ rfl rfl
      rw [hx0, g.get_eq_some_alive _ _ hx (emod_toNat_lt _ _ hh0)]
    have e5 : specContrib g true x y (-1) (-1) =
        (if g.get (mod ((x : Int) - 1) (g.width : Int)).toNat
            (mod ((y : Int) - 1) (g.height : Int)).toNat = some ALIVE
          then 1 else 0) := by
      unfold specContrib
      rw [if_pos rfl, sx, sy, mod_eq_emod _ _ hwI, mod_eq_emod _ _ hhI]
      refine if_congr ?_ rfl rfl
      rw [g.get_eq_some_alive _ _ (emod_toNat_lt _ _ hw0) (emod_toNat_lt _ _ hh0)]
    have e6 : specContrib g true x y 1 (-1) =
        (if g.get (mod ((x : Int) + 1) (g.width : Int)).toNat
            (mod ((y : Int) - 1) (g.height : Int)).toNat = some ALIVE
          then 1 else 0) := by
      unfold specContrib
      rw [if_pos rfl, sy, mod_eq_emod _ _ hwI, mod_eq_emod _ _ hhI]
      refine if_congr ?_ rfl rfl
      rw [g.get_eq_some_alive _ _ (emod_toNat_lt _ _ hw0) (emod_toNat_lt _ _ hh0)]
    have e7 : specContrib g true x y (-1) 1 =
        (if g.get (mod ((x : Int) - 1) (g.width : Int)).toNat
            (mod ((y : Int) + 1) (g.height : Int)).toNat = some ALIVE
          then 1 else 0) := by
      unfold specContrib
      rw [if_pos rfl, sx, mod_eq_emod _ _ hwI, mod_eq_emod _ _ hhI]
      refine if_congr ?_ rfl rfl
      rw [g.get_eq_some_alive _ _ (emod_toNat_lt _ _ hw0) (emod_toNat_lt _ _ hh0)]
    have e8 : specContrib g true x y 1 1 =
        (if g.get (mod ((x : Int) + 1) (g.width : Int)).toNat
            (mod ((y : Int) + 1) (g.height : Int)).toNat = some ALIVE
          then 1 else 0) := by
      unfold specContrib
      rw [if_pos rfl, mod_eq_emod _ _ hwI, mod_eq_emod _ _ hhI]
      refine if_congr ?_ rfl rfl
      rw [g.get_eq_some_alive _ _ (emod_toNat_lt _ _ hw0) (emod_toNat_lt _ _ hh0)]
    unfold World.count_neighbours specNeighbours
    rw [if_neg (by simp), e1, e2, e3, e4, e5, e6, e7, e8]
    ring

/-- The value the four conditional writes of World::step leave in the
next-state buffer at (x, y), as a function of the buffer's previous value
there (the last write wins, so the conditions appear in reverse source
order). -/
def updateVal (cur : Grid) (t : Bool) (x y : Nat) (old : Cell) : Cell :=
  let n := World.count_neighbours cur x y t
  if cur.get x y = some DEAD ∧ n = 3 then ALIVE
  else if cur.get x y = some ALIVE ∧ 3 < n then DEAD
  else if cur.get x y = some ALIVE ∧ (n = 2 ∨ n = 3) then ALIVE
  else if cur.get x y = some ALIVE ∧ n < 2 then DEAD
  else old

theorem updateCell_dims (cur : Grid) (t : Bool) (x y : Nat) (g : Grid) :
    (World.updateCell cur t x y g).width = g.width ∧
    (World.updateCell cur t x y g).height = g.height := by
  unfold World.updateCell
  dsimp only
  split_ifs <;> simp

theorem updateCell_cellAt_ne (cur : Grid) (t : Bool) (x y : Nat) (g : Grid)
    (a b : Nat) (h : ¬(a = x ∧ b = y)) :
    (World.updateCell cur t x y g).cellAt a b = g.cellAt a b := by
  unfold World.updateCell
  dsimp only
  split_ifs <;> simp [Grid.cellAt_set_of_ne _ _ _ _ _ _ h]

theorem updateCell_cellAt_self (cur : Grid) (t : Bool) (x y : Nat) (g : Grid)
    (hx : x < g.width) (hy : y < g.height) :
    (World.updateCell cur t x y g).cellAt x y = updateVal cur t x y (g.cellAt x y) := by
  unfold World.updateCell updateVal
  dsimp only
  have hs : ∀ (g' : Grid) (v : Cell), g'.width = g.width → g'.height = g.height →
      (g'.set x y v).cellAt x y = v := by
    intro g' v h1 h2
    exact g'.cellAt_set_self x y v (h1 ▸ hx) (h2 ▸ hy)
  split_ifs <;> simp_all [hs]

theorem get_self (g : Grid) (x y : Nat) (hx : x < g.width) (hy : y < g.height) :
    g.get x y = some (g.cellAt x y) := by
  unfold Grid.get Grid.cellAt
  rw [if_pos ⟨hx, hy⟩]

theorem updateVal_eq_specTransition (cur : Grid) (t : Bool) (x y : Nat)
    (hx : x < cur.width) (hy : y < cur.height) :
    updateVal cur t x y (cur.cellAt x y) = specTransition cur x y t := by
  unfold updateVal specTransition
  rw [← count_neighbours_eq_spec cur x y t hx hy, get_self cur x y hx hy]
  rcases cur.cellAt x y with _ | _ <;>
    · dsimp only
      split_ifs <;> first | rfl | (exfalso; simp_all; omega) | simp_all

/-- C1: for every World reachable by construction (from dimensions or
from an initial Grid) followed by any sequence of step calls (no resize),
step(toroidal) replaces the current grid with the Conway transition of
the old current grid — dimensions are preserved and every in-bounds cell
of the new current grid is the claim's transition (specTransition, built
on specNeighbours: the 8-cell neighbourhood count with absent
out-of-bounds neighbours in non-toroidal mode and true non-negative
modulo wrapping in toroidal mode) of the old current grid. -/
theorem claim_C1_step_conway (w : World) (hw : Reachable w) (t : Bool) :
    (w.step t).currentState.width = w.currentState.width ∧
    (w.step t).currentState.height = w.currentState.height ∧
    ∀ x y, x < w.currentState.width → y < w.currentState.height →
      (w.step t).currentState.cellAt x y = specTransition w.currentState x y t := by
  have hnext := hw.next_eq
  have hstep : (w.step t).currentState =
      (List.range w.currentState.height).foldl (fun g y =>
        (List.range w.currentState.width).foldl
          (fun g x => World.updateCell w.currentState t x y g) g)
      w.nextState := rfl
  have hpresU : ∀ x y g, (fun g : Grid => g.width = w.currentState.width ∧
      g.height = w.currentState.height) g →
      (fun g : Grid => g.width = w.currentState.width ∧
        g.height = w.currentState.height) (World.updateCell w.currentState t x y g) := by
    intro x y g hg
    have hd := updateCell_dims w.currentState t x y g
    exact ⟨hd.1.trans hg.1, hd.2.trans hg.2⟩
  have hpresRow : ∀ y g, (fun g : Grid => g.width = w.currentState.width ∧
      g.height = w.currentState.height) g →
      (fun g : Grid => g.width = w.currentState.width ∧
        g.height = w.currentState.height)
        ((List.range w.currentState.width).foldl
          (fun g x => World.updateCell w.currentState t x y g) g) := by
    intro y g hg
    exact foldl_range_pres _ _ (fun i g hg => hpresU i y g hg) _ g hg
  have hP0 : w.nextState.width = w.currentState.width ∧
      w.nextState.height = w.currentState.height := by
    rw [hnext]; exact ⟨rfl, rfl⟩
  refine ⟨?_, ?_, ?_⟩
  · rw [hstep]
    exact (foldl_range_pres _ _ hpresRow _ _ hP0).1
  · rw [hstep]
    exact (foldl_range_pres _ _ hpresRow _ _ hP0).2
  · intro x y hx hy
    rw [hstep]
    have hmain := foldl_range_write
      (fun y' g => (List.range w.currentState.width).foldl
        (fun g x' => World.updateCell w.currentState t x' y' g) g)
      (fun g : Grid => g.width = w.currentState.width ∧
        g.height = w.currentState.height)
      x y (updateVal w.currentState t x y) hpresRow
      w.currentState.height y hy ?_ ?_ w.nextState hP0
    · rw [hmain, hnext]
      exact updateVal_eq_specTransition w.currentState t x y hx hy
    · intro y' hy' g hg
      refine foldl_range_untouched _ _ x y (fun i g hg => hpresU i y' g hg) _ ?_ g hg
      intro i _ g' _
      exact updateCell_cellAt_ne w.currentState t i y' g' x y (by tauto)
    · intro g hg
      refine foldl_range_write (fun x' g => World.updateCell w.currentState t x' y g)
        _ x y (updateVal w.currentState t x y)
        (fun i g hg => hpresU i y g hg) w.currentState.width x hx ?_ ?_ g hg
      · intro i hi g' _
        exact updateCell_cellAt_ne w.currentState t i y g' x y (by tauto)
      · intro g' hg'
        exact updateCell_cellAt_self w.currentState t x y g' (hg'.1 ▸ hx) (hg'.2 ▸ hy)

/-- Witness for C1 at the concrete reachable world of size 2x2. -/
theorem claim_C1_step_conway_witness :
    Reachable (World.ofSize 2 2) ∧
    0 < (World.ofSize 2 2).currentState.width ∧
    0 < (World.ofSize 2 2).currentState.height ∧
    ((World.ofSize 2 2).step false).currentState.cellAt 0 0 =
      specTransition (World.ofSize 2 2).currentState 0 0 false :=
  ⟨Reachable.ofSize 2 2, by decide, by decide,
    (claim_C1_step_conway (World.ofSize 2 2) (Reachable.ofSize 2 2) false).2.2
      0 0 (by decide) (by decide)⟩

/-- C2 (code bug): World::resize(3, 3) on a 2x2 world leaves the two
buffers with different dimensions — the source resizes only currentState
and never touches nextState, so the claimed invariant (both buffers equal
to the new dimensions after every resize) fails at this input. -/
theorem claim_C2_resize_desync :
    ((World.ofSize 2 2).resize 3 3).currentState.width = 3 ∧
    ((World.ofSize 2 2).resize 3 3).currentState.height = 3 ∧
    ((World.ofSize 2 2).resize 3 3).nextState.width = 2 ∧
    ((World.ofSize 2 2).resize 3 3).nextState.height = 2 := by
  refine ⟨?_, ?_, rfl, rfl⟩ <;> decide

/-- C6 (code bug): after step the next-state buffer does not hold the
previous generation.  On a 1x1 world whose single cell is ALIVE, the cell
dies, and the post-step nextState holds the new generation (DEAD) rather
than the pre-step current grid's value (ALIVE): the source ends step with
the buffer copy currentState = nextState instead of the documented swap. -/
theorem claim_C6_next_holds_new_generation :
    ((Grid.ofSize 2 2).set 0 0 ALIVE).cellAt 0 0 = ALIVE ∧
    ((World.ofGrid ((Grid.ofSize 2 2).set 0 0 ALIVE)).step false).nextState.cellAt 0 0
      = DEAD := by
  refine ⟨?_, ?_⟩ <;> decide

theorem advanceAux_iterate (k : Nat) :
    ∀ (w : World) (i steps : Int) (t : Bool), (steps - i).toNat = k →
      World.advanceAux w i steps t = (fun v => World.step v t)^[k] w := by
  induction k with
  | zero =>
    intro w i steps t hk
    rw [World.advanceAux, dif_neg (by omega)]
    rfl
  | succ m ih =>
    intro w i steps t hk
    rw [World.advanceAux, dif_pos (by omega)]
    rw [ih (w.step t) (i + 1) steps t (by omega)]
    rw [Function.iterate_succ_apply]

/-- C10: World::advance(steps, toroidal) performs exactly max(steps, 0)
sequential step calls; in particular a zero or negative step count leaves
the world unchanged (the loop clamps, it does not fail). -/
theorem claim_C10_advance_clamps (w : World) (steps : Int) (t : Bool) :
    World.advance w steps t = (fun v => World.step v t)^[(max steps 0).toNat] w ∧
    (steps ≤ 0 → World.advance w steps t = w) := by
  constructor
  · unfold World.advance
    exact advanceAux_iterate _ w 0 steps t (by omega)
  · intro hs
    unfold World.advance
    rw [advanceAux_iterate 0 w 0 steps t (by omega)]
    rfl

/-- Witness for C10 at a concrete world and a negative step count. -/
theorem claim_C10_advance_clamps_witness :
    World.advance (World.ofSize 1 1) (-2) false =
      (fun v => World.step v false)^[(max (-2 : Int) 0).toNat] (World.ofSize 1 1) ∧
    ((-2 : Int) ≤ 0) ∧
    World.advance (World.ofSize 1 1) (-2) false = World.ofSize 1 1 :=
  ⟨(claim_C10_advance_clamps (World.ofSize 1 1) (-2) false).1, by decide,
    (claim_C10_advance_clamps (World.ofSize 1 1) (-2) false).2 (by decide)⟩


/-- C8: merge with alive_only = true, at a placement that passes both of
the source's bound checks, succeeds and is a monotonic overlay: a target
cell that was ALIVE stays ALIVE, and a target cell that was DEAD receives
the corresponding cell of the other grid. -/
theorem claim_C8_merge_alive_only (g other : Grid) (x0 y0 : Int)
    (hneg : ¬(x0 < 0 ∨ y0 < 0))
    (hfit : ¬(x0 + (other.width : Int) > (g.width : Int) ∨
      y0 + (other.height : Int) > (g.height : Int))) :
    ∃ g', g.merge other x0 y0 true = some g' ∧
      ∀ i j, i < other.width → j < other.height →
        (g.cellAt (x0.toNat + i) (y0.toNat + j) = ALIVE →
          g'.cellAt (x0.toNat + i) (y0.toNat + j) = ALIVE) ∧
        (g.cellAt (x0.toNat + i) (y0.toNat + j) = DEAD →
          g'.cellAt (x0.toNat + i) (y0.toNat + j) = other.cellAt i j) := by
  unfold Grid.merge
  rw [if_neg hneg, if_neg hfit, if_pos rfl]
  refine ⟨_, rfl, ?_⟩
  intro i j hi hj
  have hmain := foldl_range_write
    (fun i' t => (List.range other.height).foldl (fun t j' =>
      if t.cellAt (x0.toNat + i') (y0.toNat + j') = DEAD then
        t.setCell (x0.toNat + i') (y0.toNat + j') (other.cellAt i' j')
      else t) t)
    (fun _ => True) (x0.toNat + i) (y0.toNat + j)
    (fun old => if old = DEAD then other.cellAt i j else old)
    (fun _ _ _ => trivial) other.width i hi ?_ ?_ g trivial
  · rw [hmain]
    constructor
    · intro ha
      rw [ha]
      simp
    · intro hd
      rw [hd]
      simp
  · intro i' hi' t _
    refine foldl_range_untouched _ (fun _ => True) _ _ (fun _ _ _ => trivial) _ ?_ t trivial
    intro j' _ t' _
    split
    · refine t'.cellAt_setCell_of_ne _ _ _ _ _ ?_
      rintro ⟨h1, -⟩
      omega
    · rfl
  · intro t _
    refine foldl_range_write
      (fun j' t => if t.cellAt (x0.toNat + i) (y0.toNat + j') = DEAD then
          t.setCell (x0.toNat + i) (y0.toNat + j') (other.cellAt i j') else t)
      (fun _ => True) (x0.toNat + i) (y0.toNat + j)
      (fun old => if old = DEAD then other.cellAt i j else old)
      (fun _ _ _ => trivial) other.height j hj ?_ ?_ t trivial
    · intro j' hj' t' _
      dsimp only
      split
      · refine t'.cellAt_setCell_of_ne _ _ _ _ _ ?_
        rintro ⟨-, h2⟩
        omega
      · rfl
    · intro t' _
      dsimp only
      by_cases hd : t'.cellAt (x0.toNat + i) (y0.toNat + j) = DEAD
      · rw [if_pos hd, if_pos hd, t'.cellAt_setCell_self]
      · rw [if_neg hd, if_neg hd]

/-- Witness for C8: a 2x2 target with one ALIVE cell and a 1x1 all-DEAD
other grid merged at the origin. -/
theorem claim_C8_merge_alive_only_witness :
    (¬((0 : Int) < 0 ∨ (0 : Int) < 0)) ∧
    (¬((0 : Int) + ((Grid.ofSize 1 1).width : Int) >
        (((Grid.ofSize 2 2).set 0 0 ALIVE).width : Int) ∨
      (0 : Int) + ((Grid.ofSize 1 1).height : Int) >
        (((Grid.ofSize 2 2).set 0 0 ALIVE).height : Int))) ∧
    (∃ g', ((Grid.ofSize 2 2).set 0 0 ALIVE).merge (Grid.ofSize 1 1) 0 0 true = some g' ∧
      ∀ i j, i < (Grid.ofSize 1 1).width → j < (Grid.ofSize 1 1).height →
        (((Grid.ofSize 2 2).set 0 0 ALIVE).cellAt ((0 : Int).toNat + i) ((0 : Int).toNat + j) = ALIVE →
          g'.cellAt ((0 : Int).toNat + i) ((0 : Int).toNat + j) = ALIVE) ∧
        (((Grid.ofSize 2 2).set 0 0 ALIVE).cellAt ((0 : Int).toNat + i) ((0 : Int).toNat + j) = DEAD →
          g'.cellAt ((0 : Int).toNat + i) ((0 : Int).toNat + j) = (Grid.ofSize 1 1).cellAt i j)) :=
  ⟨by decide, by decide,
    claim_C8_merge_alive_only ((Grid.ofSize 2 2).set 0 0 ALIVE) (Grid.ofSize 1 1) 0 0
      (by decide) (by decide)⟩

/-- C9 (modelled from the spec, since Grid::rotate's implementation is
commented out in grid.cpp): rotate(r) equals rotate(r + 4) for every
integer r, rotate(0) is the identity, and rotating by an odd multiple of
90 degrees swaps the width and the height.  rotate is a pure function of
the grid in this embedding, so the original grid is left unmodified by
construction. -/
theorem claim_C9_rotate_period (g : Grid) (r : Int) :
    g.rotate r = g.rotate (r + 4) ∧
    g.rotate 0 = g ∧
    (r % 2 ≠ 0 → (g.rotate r).width = g.height ∧ (g.rotate r).height = g.width) := by
  refine ⟨?_, ?_, ?_⟩
  · unfold Grid.rotate
    rw [show (r + 4) % 4 = r % 4 by omega]
  · rfl
  · intro hodd
    have h4 : (r % 4).toNat = 1 ∨ (r % 4).toNat = 3 := by omega
    unfold Grid.rotate
    rcases h4 with h | h <;> rw [h] <;> exact ⟨rfl, rfl⟩

/-- Witness for C9 on a 1x3 grid with rotation 1 (odd). -/
theorem claim_C9_rotate_period_witness :
    (Grid.ofSize 1 3).rotate 1 = (Grid.ofSize 1 3).rotate (1 + 4) ∧
    (Grid.ofSize 1 3).rotate 0 = Grid.ofSize 1 3 ∧
    ((1 : Int) % 2 ≠ 0) ∧
    ((Grid.ofSize 1 3).rotate 1).width = (Grid.ofSize 1 3).height ∧
    ((Grid.ofSize 1 3).rotate 1).height = (Grid.ofSize 1 3).width :=
  ⟨(claim_C9_rotate_period (Grid.ofSize 1 3) 1).1,
    (claim_C9_rotate_period (Grid.ofSize 1 3) 1).2.1, by decide,
    ((claim_C9_rotate_period (Grid.ofSize 1 3) 1).2.2 (by decide)).1,
    ((claim_C9_rotate_period (Grid.ofSize 1 3) 1).2.2 (by decide)).2⟩

namespace Zoo

/-- The byte-count expression both binary codec functions compute:
((height*width) + ((height*width) % 8)) / 8.  (Note this is smaller than
the ceiling of n/8 exactly when n % 8 is 1, 2 or 3.) -/
def numBytes (n : Nat) : Nat :=
  (n + n % 8) / 8

/-- One byte of Zoo::save_binary's gridBytes array: the inner loop over
the 8 bit positions, ORing in 1 shifted by j when the cell holding bit
curBit = i*8 + j is ALIVE.  The source breaks out of the loop once curBit
reaches height*width; since curBit grows with j, guarding each iteration
the same way is equivalent.  The read grid(x, y) is the bounds-checked
operator(), in bounds because curBit < height*width. -/
def packByte (g : Grid) (n i : Nat) : Nat :=
  (List.range 8).foldl (fun b j =>
    if n ≤ i * 8 + j then b
    else if g.cellAt ((i * 8 + j) % g.width) ((i * 8 + j) / g.width) = ALIVE then
      b ||| (1 <<< j)
    else b) 0

/-- Zoo::save_binary(path, grid), as the byte sequence written to an
openable destination.  The headBytes array narrows (char)(width << s) for
s = 0, 8, 16, 24: narrowing to a byte keeps the low 8 bits, modelled by
% 256 (for shifts of 8 or more that low byte is 0, which is also what the
compiled source writes).  The grid dimensions are non-negative ints. -/
def save_binary (g : Grid) : List Nat :=
  let width := g.width
  let height := g.height
  let headBytes : List Nat :=
    [(width <<< 0) % 256, (width <<< 8) % 256, (width <<< 16) % 256, (width <<< 24) % 256,
     (height <<< 0) % 256, (height <<< 8) % 256, (height <<< 16) % 256, (height <<< 24) % 256]
  headBytes ++ (List.range (numBytes (height * width))).map (packByte g (height * width))

/-- The 4-byte little-endian signed integer read of ifstream::read into
an int on the little-endian target; bytes past the end of the file leave
the destination bytes unchanged — every use below reads files with a full
8-byte header, and the data bytes default to 0 exactly like the
zero-initialised cellBytes array of the source. -/
def readInt32 (file : List Nat) (off : Nat) : Int :=
  let v := file.getD off 0 + 256 * file.getD (off + 1) 0 +
    65536 * file.getD (off + 2) 0 + 16777216 * file.getD (off + 3) 0
  if v < 2147483648 then (v : Int) else (v : Int) - 4294967296

/-- Zoo::load_binary(path) on the byte contents of an openable file.
A negative parsed width or height makes the Grid constructor throw
std::length_error, which the catch block rethrows as runtime_error —
modelled as none.  Otherwise nothing in the function can throw: the
stream has no exceptions enabled, so a short read of cellBytes simply
leaves the zero-initialised bytes at 0 (file.getD _ 0) and the loop runs
to completion, returning the grid.  The inner loop's break is embedded as
a per-iteration guard, equivalent because curBit grows with j. -/
def load_binary (file : List Nat) : Option Grid :=
  let width := readInt32 file 0
  let height := readInt32 file 4
  if width < 0 ∨ height < 0 then none
  else
    let w := width.toNat
    let h := height.toNat
    let n := h * w
    some ((List.range (numBytes n)).foldl (fun g i =>
      (List.range 8).foldl (fun g j =>
        if n ≤ i * 8 + j then g
        else if (file.getD (8 + i) 0) &&& (1 <<< j) ≠ 0 then
          g.set ((i * 8 + j) % w) ((i * 8 + j) / w) ALIVE
        else g) g)
      (Grid.ofSize w h))

end Zoo

theorem packByte_fold_testBit (g : Grid) (n i : Nat) (l : List Nat) :
    ∀ (b : Nat) (t : Nat),
      ((l.foldl (fun b j =>
        if n ≤ i * 8 + j then b
        else if g.cellAt ((i * 8 + j) % g.width) ((i * 8 + j) / g.width) = ALIVE then
          b ||| (1 <<< j)
        else b) b).testBit t)
      = (b.testBit t ||
         l.any (fun j => decide (j = t) && decide (i * 8 + j < n) &&
           decide (g.cellAt ((i * 8 + j) % g.width) ((i * 8 + j) / g.width) = ALIVE))) := by
  induction l with
  | nil => intro b t; simp
  | cons jh lt ih =>
    intro b t
    rw [List.foldl_cons, List.any_cons]
    by_cases h1 : n ≤ i * 8 + jh
    · rw [if_pos h1, ih]
      have hff : decide (i * 8 + jh < n) = false := by
        simp
        omega
      rw [hff]
      simp
    · rw [if_neg h1]
      by_cases h2 : g.cellAt ((i * 8 + jh) % g.width) ((i * 8 + jh) / g.width) = ALIVE
      · rw [if_pos h2, ih, Nat.testBit_or]
        have hsh : (1 <<< jh).testBit t = decide (jh = t) := by
          rw [Nat.shiftLeft_eq, one_mul, Nat.testBit_two_pow]
        have htt : decide (i * 8 + jh < n) = true := by
          simp
          omega
        have h2t : decide (g.cellAt ((i * 8 + jh) % g.width)
            ((i * 8 + jh) / g.width) = ALIVE) = true := by
          simp [h2]
        rw [hsh, htt, h2t, Bool.and_true, Bool.and_true, Bool.or_assoc]
      · rw [if_neg h2, ih]
        have h2f : decide (g.cellAt ((i * 8 + jh) % g.width)
            ((i * 8 + jh) / g.width) = ALIVE) = false := by
          simp [h2]
        rw [h2f]
        simp

theorem packByte_testBit (g : Grid) (n i t : Nat) (ht : t < 8) :
    ((Zoo.packByte g n i).testBit t = true) ↔
      (i * 8 + t < n ∧ g.cellAt ((i * 8 + t) % g.width) ((i * 8 + t) / g.width) = ALIVE) := by
  unfold Zoo.packByte
  rw [packByte_fold_testBit]
  simp only [Nat.zero_testBit, Bool.false_or, List.any_eq_true, List.mem_range,
    Bool.and_eq_true, decide_eq_true_eq]
  constructor
  · rintro ⟨j, hj8, ⟨rfl, hlt⟩, halive⟩
    exact ⟨hlt, halive⟩
  · rintro ⟨hlt, halive⟩
    exact ⟨t, ht, ⟨rfl, hlt⟩, halive⟩

theorem and_shift_ne_zero (m j : Nat) :
    (m &&& (1 <<< j) ≠ 0) ↔ m.testBit j = true := by
  rw [Nat.shiftLeft_eq, one_mul, Nat.and_two_pow]
  cases hb : m.testBit j <;> simp [hb]

theorem getD_map_range {α : Type} (f : Nat → α) (n i : Nat) (hi : i < n) (d : α) :
    ((List.range n).map f).getD i d = f i := by
  rw [List.getD_eq_getElem?_getD, List.getElem?_map, List.getElem?_range hi]
  rfl

theorem save_binary_eq (g : Grid) :
    Zoo.save_binary g =
      [g.width % 256, 0, 0, 0, g.height % 256, 0, 0, 0] ++
      (List.range (Zoo.numBytes (g.height * g.width))).map
        (Zoo.packByte g (g.height * g.width)) := by
  have hsh : ∀ k s : Nat, 8 ≤ s → (k <<< s) % 256 = 0 := by
    intro k s hs
    rw [Nat.shiftLeft_eq]
    have h2 : (2 : Nat) ^ s = 256 * 2 ^ (s - 8) := by
      rw [show (256 : Nat) = 2 ^ 8 by norm_num, ← pow_add]
      congr 1
      omega
    rw [h2, show k * (256 * 2 ^ (s - 8)) = k * 2 ^ (s - 8) * 256 by ring]
    exact Nat.mul_mod_left _ _
  unfold Zoo.save_binary
  dsimp only
  rw [Nat.shiftLeft_zero, Nat.shiftLeft_zero,
    hsh g.width 8 (by omega), hsh g.width 16 (by omega), hsh g.width 24 (by omega),
    hsh g.height 8 (by omega), hsh g.height 16 (by omega), hsh g.height 24 (by omega)]

/-- C5 (amended): the byte sequence written by save_binary is: one byte
holding width mod 256 followed by three zero bytes (little-endian only
when the width fits one byte), the same for the height, then
(w*h + (w*h mod 8)) / 8 data bytes — one byte fewer than the ceiling of
w*h/8 when w*h mod 8 is 1, 2 or 3, silently dropping the trailing cells —
holding the first cell bits in row-major order (x fastest),
least-significant-bit first, bit 1 for ALIVE, and padding bits 0. -/
theorem claim_C5_binary_layout (g : Grid) :
    (Zoo.save_binary g).length = 8 + Zoo.numBytes (g.height * g.width) ∧
    (Zoo.save_binary g).getD 0 0 = g.width % 256 ∧
    (Zoo.save_binary g).getD 1 0 = 0 ∧
    (Zoo.save_binary g).getD 2 0 = 0 ∧
    (Zoo.save_binary g).getD 3 0 = 0 ∧
    (Zoo.save_binary g).getD 4 0 = g.height % 256 ∧
    (Zoo.save_binary g).getD 5 0 = 0 ∧
    (Zoo.save_binary g).getD 6 0 = 0 ∧
    (Zoo.save_binary g).getD 7 0 = 0 ∧
    ∀ i j, i < Zoo.numBytes (g.height * g.width) → j < 8 →
      (((Zoo.save_binary g).getD (8 + i) 0).testBit j = true ↔
        (i * 8 + j < g.height * g.width ∧
         g.cellAt ((i * 8 + j) % g.width) ((i * 8 + j) / g.width) = ALIVE)) := by
  rw [save_binary_eq]
  refine ⟨by simp only [List.length_append, List.length_map, List.length_range,
      List.length_cons, List.length_nil],
    rfl, rfl, rfl, rfl, rfl, rfl, rfl, rfl, ?_⟩
  intro i j hi hj
  rw [List.getD_append_right _ _ _ _ (by simp)]
  have hidx : 8 + i - [g.width % 256, 0, 0, 0, g.height % 256, 0, 0, 0].length = i := by
    simp
  rw [hidx, getD_map_range _ _ _ hi]
  exact packByte_testBit g _ i j hj

/-- Witness for C5 on a 2x2 grid with cell (0,0) ALIVE: bit 0 of the
single data byte is set. -/
theorem claim_C5_binary_layout_witness :
    (Zoo.save_binary ((Grid.ofSize 2 2).set 0 0 ALIVE)).length =
      8 + Zoo.numBytes (((Grid.ofSize 2 2).set 0 0 ALIVE).height *
        ((Grid.ofSize 2 2).set 0 0 ALIVE).width) ∧
    (0 < Zoo.numBytes (((Grid.ofSize 2 2).set 0 0 ALIVE).height *
      ((Grid.ofSize 2 2).set 0 0 ALIVE).width)) ∧ (0 < 8) ∧
    (((Zoo.save_binary ((Grid.ofSize 2 2).set 0 0 ALIVE)).getD (8 + 0) 0).testBit 0 = true ↔
      (0 * 8 + 0 < ((Grid.ofSize 2 2).set 0 0 ALIVE).height *
        ((Grid.ofSize 2 2).set 0 0 ALIVE).width ∧
       ((Grid.ofSize 2 2).set 0 0 ALIVE).cellAt
         ((0 * 8 + 0) % ((Grid.ofSize 2 2).set 0 0 ALIVE).width)
         ((0 * 8 + 0) / ((Grid.ofSize 2 2).set 0 0 ALIVE).width) = ALIVE)) :=
  ⟨(claim_C5_binary_layout ((Grid.ofSize 2 2).set 0 0 ALIVE)).1, by decide, by decide,
    (claim_C5_binary_layout ((Grid.ofSize 2 2).set 0 0 ALIVE)).2.2.2.2.2.2.2.2.2
      0 0 (by decide) (by decide)⟩

/-- Counterexample for C5 as stated: on a 257x1 all-DEAD grid the second
header byte is 0 where 4-byte little-endian 257 has second byte 1, and
the output holds 32 data bytes where ceil(257/8) = 33 are claimed (the
final cell bit is dropped). -/
theorem claim_C5_binary_layout_cx :
    (Zoo.save_binary (Grid.ofSize 257 1)).getD 1 0 ≠ 257 / 256 % 256 ∧
    (Zoo.save_binary (Grid.ofSize 257 1)).length ≠ 8 + (257 * 1 + 7) / 8 := by
  constructor <;> decide

theorem save_binary_data_testBit (g : Grid) (i j : Nat)
    (hi : i < Zoo.numBytes (g.height * g.width)) (hj : j < 8) :
    (((Zoo.save_binary g).getD (8 + i) 0).testBit j = true ↔
      (i * 8 + j < g.height * g.width ∧
       g.cellAt ((i * 8 + j) % g.width) ((i * 8 + j) / g.width) = ALIVE)) := by
  rw [save_binary_eq]
  rw [List.getD_append_right _ _ _ _ (by simp)]
  have hidx : 8 + i - [g.width % 256, 0, 0, 0, g.height % 256, 0, 0, 0].length = i := by
    simp
  rw [hidx, getD_map_range _ _ _ hi]
  exact packByte_testBit g _ i j hj

theorem readInt32_save_zero (g : Grid) (hw : g.width < 256) :
    Zoo.readInt32 (Zoo.save_binary g) 0 = (g.width : Int) := by
  unfold Zoo.readInt32
  rw [save_binary_eq]
  dsimp only
  rw [List.getD_append _ _ _ 0 (by simp), List.getD_append _ _ _ 1 (by simp),
    List.getD_append _ _ _ 2 (by simp), List.getD_append _ _ _ 3 (by simp)]
  simp only [List.getD_cons_zero, List.getD_cons_succ]
  rw [Nat.mod_eq_of_lt hw]
  rw [if_pos (by omega)]
  simp

theorem readInt32_save_four (g : Grid) (hh : g.height < 256) :
    Zoo.readInt32 (Zoo.save_binary g) 4 = (g.height : Int) := by
  unfold Zoo.readInt32
  rw [save_binary_eq]
  dsimp only
  rw [List.getD_append _ _ _ 4 (by simp), List.getD_append _ _ _ 5 (by simp),
    List.getD_append _ _ _ 6 (by simp), List.getD_append _ _ _ 7 (by simp)]
  simp only [List.getD_cons_zero, List.getD_cons_succ]
  rw [Nat.mod_eq_of_lt hh]
  rw [if_pos (by omega)]
  simp

theorem rowmajor_mod (w x y : Nat) (hx : x < w) : (y * w + x) % w = x := by
  rw [show y * w + x = x + w * y by ring, Nat.add_mul_mod_self_left,
    Nat.mod_eq_of_lt hx]

theorem rowmajor_div (w x y : Nat) (hx : x < w) : (y * w + x) / w = y := by
  rw [show y * w + x = x + w * y by ring,
    Nat.add_mul_div_left _ _ (by omega : 0 < w), Nat.div_eq_of_lt hx, Nat.zero_add]

theorem cell_index_lt (w h x y : Nat) (hx : x < w) (hy : y < h) :
    y * w + x < h * w := by
  have h2 : (y + 1) * w ≤ h * w := Nat.mul_le_mul_right w hy
  rw [Nat.add_mul, Nat.one_mul] at h2
  omega

/-- C3 (amended): save_binary followed by load_binary reproduces the
width, the height and every cell value, for every grid whose width and
height are below 256 (the header stores only the low byte of each) and
whose cell count is not congruent to 1, 2 or 3 modulo 8 (otherwise the
byte-count formula of the codec drops the trailing cells). -/
theorem claim_C3_binary_roundtrip (g : Grid) (hw : g.width < 256) (hh : g.height < 256)
    (hr1 : g.height * g.width % 8 ≠ 1) (hr2 : g.height * g.width % 8 ≠ 2)
    (hr3 : g.height * g.width % 8 ≠ 3) :
    ∃ g', Zoo.load_binary (Zoo.save_binary g) = some g' ∧
      g'.width = g.width ∧ g'.height = g.height ∧
      ∀ x y, x < g.width → y < g.height → g'.cellAt x y = g.cellAt x y := by
  have hneg : ¬(((g.width : Nat) : Int) < 0 ∨ ((g.height : Nat) : Int) < 0) := by omega
  have hload : Zoo.load_binary (Zoo.save_binary g) =
      some ((List.range (Zoo.numBytes (g.height * g.width))).foldl (fun t i =>
        (List.range 8).foldl (fun t j =>
          if g.height * g.width ≤ i * 8 + j then t
          else if ((Zoo.save_binary g).getD (8 + i) 0) &&& (1 <<< j) ≠ 0 then
            t.set ((i * 8 + j) % g.width) ((i * 8 + j) / g.width) ALIVE
          else t) t)
        (Grid.ofSize g.width g.height)) := by
    unfold Zoo.load_binary
    dsimp only
    rw [readInt32_save_zero g hw, readInt32_save_four g hh, if_neg hneg,
      Int.toNat_natCast, Int.toNat_natCast]
  have hpresW : ∀ (i j : Nat) (t : Grid), (t.width = g.width ∧ t.height = g.height) →
      ((if g.height * g.width ≤ i * 8 + j then t
        else if ((Zoo.save_binary g).getD (8 + i) 0) &&& (1 <<< j) ≠ 0 then
          t.set ((i * 8 + j) % g.width) ((i * 8 + j) / g.width) ALIVE
        else t).width = g.width ∧
       (if g.height * g.width ≤ i * 8 + j then t
        else if ((Zoo.save_binary g).getD (8 + i) 0) &&& (1 <<< j) ≠ 0 then
          t.set ((i * 8 + j) % g.width) ((i * 8 + j) / g.width) ALIVE
        else t).height = g.height) := by
    intro i j t ht
    split
    · exact ht
    · split
      · simpa using ht
      · exact ht
  have hpresInner : ∀ (i : Nat) (t : Grid), (t.width = g.width ∧ t.height = g.height) →
      (((List.range 8).foldl (fun t j =>
        if g.height * g.width ≤ i * 8 + j then t
        else if ((Zoo.save_binary g).getD (8 + i) 0) &&& (1 <<< j) ≠ 0 then
          t.set ((i * 8 + j) % g.width) ((i * 8 + j) / g.width) ALIVE
        else t) t).width = g.width ∧
       ((List.range 8).foldl (fun t j =>
        if g.height * g.width ≤ i * 8 + j then t
        else if ((Zoo.save_binary g).getD (8 + i) 0) &&& (1 <<< j) ≠ 0 then
          t.set ((i * 8 + j) % g.width) ((i * 8 + j) / g.width) ALIVE
        else t) t).height = g.height) := by
    intro i t ht
    exact foldl_range_pres _ (fun t => t.width = g.width ∧ t.height = g.height)
      (fun j t ht => hpresW i j t ht) 8 t ht
  have hdims := foldl_range_pres _
    (fun t => t.width = g.width ∧ t.height = g.height) hpresInner
    (Zoo.numBytes (g.height * g.width)) (Grid.ofSize g.width g.height) ⟨rfl, rfl⟩
  refine ⟨_, hload, hdims.1, hdims.2, ?_⟩
  intro x y hx hy
  have hk : y * g.width + x < g.height * g.width := cell_index_lt _ _ _ _ hx hy
  have hle : g.height * g.width ≤ 8 * Zoo.numBytes (g.height * g.width) := by
    unfold Zoo.numBytes
    omega
  have hi0 : (y * g.width + x) / 8 < Zoo.numBytes (g.height * g.width) := by omega
  have hj0 : (y * g.width + x) % 8 < 8 := by omega
  have hk8 : (y * g.width + x) / 8 * 8 + (y * g.width + x) % 8 = y * g.width + x := by
    have := Nat.div_add_mod (y * g.width + x) 8
    omega
  have hcoordne : ∀ c : Nat, c ≠ y * g.width + x →
      ¬(x = c % g.width ∧ y = c / g.width) := by
    intro c hc hcon
    obtain ⟨h1, h2⟩ := hcon
    have hdm := Nat.div_add_mod c g.width
    rw [← h2, ← h1] at hdm
    have hmm : g.width * y = y * g.width := Nat.mul_comm _ _
    omega
  have huntW : ∀ (i j : Nat) (t : Grid), i * 8 + j ≠ y * g.width + x →
      ((if g.height * g.width ≤ i * 8 + j then t
        else if ((Zoo.save_binary g).getD (8 + i) 0) &&& (1 <<< j) ≠ 0 then
          t.set ((i * 8 + j) % g.width) ((i * 8 + j) / g.width) ALIVE
        else t).cellAt x y = t.cellAt x y) := by
    intro i j t hne
    split
    · rfl
    · split
      · exact Grid.cellAt_set_of_ne _ _ _ _ _ _ (hcoordne _ hne)
      · rfl
  have hval : ∀ (t : Grid), (t.width = g.width ∧ t.height = g.height) →
      ((if g.height * g.width ≤ (y * g.width + x) / 8 * 8 + (y * g.width + x) % 8 then t
        else if ((Zoo.save_binary g).getD (8 + (y * g.width + x) / 8) 0) &&&
            (1 <<< ((y * g.width + x) % 8)) ≠ 0 then
          t.set (((y * g.width + x) / 8 * 8 + (y * g.width + x) % 8) % g.width)
            (((y * g.width + x) / 8 * 8 + (y * g.width + x) % 8) / g.width) ALIVE
        else t).cellAt x y =
        (fun old => if g.cellAt x y = ALIVE then ALIVE else old) (t.cellAt x y)) := by
    intro t ht
    dsimp only
    rw [if_neg (by omega)]
    have hbit := save_binary_data_testBit g ((y * g.width + x) / 8)
      ((y * g.width + x) % 8) hi0 hj0
    rw [hk8] at hbit
    rw [rowmajor_mod g.width x y hx, rowmajor_div g.width x y hx] at hbit
    have hiff : (((Zoo.save_binary g).getD (8 + (y * g.width + x) / 8) 0) &&&
        (1 <<< ((y * g.width + x) % 8)) ≠ 0) ↔ g.cellAt x y = ALIVE := by
      rw [and_shift_ne_zero, hbit]
      constructor
      · rintro ⟨-, h2⟩
        exact h2
      · intro h2
        exact ⟨hk, h2⟩
    by_cases hcell : g.cellAt x y = ALIVE
    · rw [if_pos (hiff.mpr hcell), if_pos hcell, hk8,
        rowmajor_mod g.width x y hx, rowmajor_div g.width x y hx]
      exact Grid.cellAt_set_self t x y ALIVE (ht.1 ▸ hx) (ht.2 ▸ hy)
    · rw [if_neg (fun hb => hcell (hiff.mp hb)), if_neg hcell]
  have hmain := foldl_range_write
    (fun i t => (List.range 8).foldl (fun t j =>
      if g.height * g.width ≤ i * 8 + j then t
      else if ((Zoo.save_binary g).getD (8 + i) 0) &&& (1 <<< j) ≠ 0 then
        t.set ((i * 8 + j) % g.width) ((i * 8 + j) / g.width) ALIVE
      else t) t)
    (fun t => t.width = g.width ∧ t.height = g.height)
    x y (fun old => if g.cellAt x y = ALIVE then ALIVE else old)
    hpresInner (Zoo.numBytes (g.height * g.width)) ((y * g.width + x) / 8) hi0
    ?_ ?_ (Grid.ofSize g.width g.height) ⟨rfl, rfl⟩
  · rw [hmain, show (Grid.ofSize g.width g.height).cellAt x y = DEAD from rfl]
    dsimp only
    by_cases hcell : g.cellAt x y = ALIVE
    · rw [if_pos hcell, hcell]
    · rw [if_neg hcell]
      rcases hc2 : g.cellAt x y with _ | _
      · rfl
      · exact absurd hc2 hcell
  · intro i hi t ht
    refine foldl_range_untouched _
      (fun t => t.width = g.width ∧ t.height = g.height) x y
      (fun j t ht => hpresW i j t ht) 8 ?_ t ht
    intro j hj t' _
    refine huntW i j t' ?_
    intro hcon
    have h8 := Nat.div_add_mod (y * g.width + x) 8
    omega
  · intro t ht
    have hv := foldl_range_write
      (fun j t =>
        if g.height * g.width ≤ (y * g.width + x) / 8 * 8 + j then t
        else if ((Zoo.save_binary g).getD (8 + (y * g.width + x) / 8) 0) &&& (1 <<< j) ≠ 0 then
          t.set (((y * g.width + x) / 8 * 8 + j) % g.width)
            (((y * g.width + x) / 8 * 8 + j) / g.width) ALIVE
        else t)
      (fun t => t.width = g.width ∧ t.height = g.height)
      x y (fun old => if g.cellAt x y = ALIVE then ALIVE else old)
      (fun j t ht => hpresW ((y * g.width + x) / 8) j t ht)
      8 ((y * g.width + x) % 8) hj0 ?_ ?_ t ht
    · exact hv
    · intro j hj t' _
      refine huntW ((y * g.width + x) / 8) j t' ?_
      intro hcon
      have h8 := Nat.div_add_mod (y * g.width + x) 8
      omega
    · intro t' ht'
      exact hval t' ht'

/-- The 6x6 end-to-end grid of the specification: all DEAD except the
five cells (2,1), (3,2), (1,3), (2,3), (3,3). -/
def endToEndGrid : Grid :=
  ((((((Grid.ofSize 6 6).set 2 1 ALIVE).set 3 2 ALIVE).set 1 3 ALIVE).set
    2 3 ALIVE).set 3 3 ALIVE)

/-- Witness for C3 on the specification's 6x6 end-to-end grid
(36 cells, 36 mod 8 = 4, both dimensions below 256). -/
theorem claim_C3_binary_roundtrip_witness :
    endToEndGrid.width < 256 ∧ endToEndGrid.height < 256 ∧
    endToEndGrid.height * endToEndGrid.width % 8 ≠ 1 ∧
    endToEndGrid.height * endToEndGrid.width % 8 ≠ 2 ∧
    endToEndGrid.height * endToEndGrid.width % 8 ≠ 3 ∧
    (∃ g', Zoo.load_binary (Zoo.save_binary endToEndGrid) = some g' ∧
      g'.width = endToEndGrid.width ∧ g'.height = endToEndGrid.height ∧
      ∀ x y, x < endToEndGrid.width → y < endToEndGrid.height →
        g'.cellAt x y = endToEndGrid.cellAt x y) :=
  ⟨by decide, by decide, by decide, by decide, by decide,
    claim_C3_binary_roundtrip endToEndGrid (by decide) (by decide)
      (by decide) (by decide) (by decide)⟩

/-- Counterexample for C3 as stated: a 3x3 grid with cell (2,2) ALIVE has
9 cells (9 mod 8 = 1), so the codec writes only one data byte and the
round trip loses the last cell: it comes back DEAD. -/
theorem claim_C3_binary_roundtrip_cx :
    ((Grid.ofSize 3 3).set 2 2 ALIVE).cellAt 2 2 = ALIVE ∧
    (Zoo.load_binary (Zoo.save_binary ((Grid.ofSize 3 3).set 2 2 ALIVE))).map
      (fun g' => g'.cellAt 2 2) = some DEAD := by
  constructor
  · decide
  · rfl

/-- C7 (code bug): an openable file holding exactly the 8-byte header
for a 1x8 grid and none of the 1 declared data byte is loaded without
any reported failure: load_binary silently returns a 1x8 grid (all the
missing bytes read as 0), because the stream has no exceptions enabled
and the short read is never checked. -/
theorem claim_C7_truncated_silent :
    [1, 0, 0, 0, 8, 0, 0, 0].length = 8 ∧
    0 < Zoo.numBytes (8 * 1) ∧
    (Zoo.load_binary [1, 0, 0, 0, 8, 0, 0, 0]).isSome = true ∧
    (Zoo.load_binary [1, 0, 0, 0, 8, 0, 0, 0]).map Grid.width = some 1 ∧
    (Zoo.load_binary [1, 0, 0, 0, 8, 0, 0, 0]).map Grid.height = some 8 := by
  refine ⟨rfl, by decide, ?_, ?_, ?_⟩ <;> rfl

namespace Zoo

/-- Decimal digits of n, most significant first, as byte values (48 is
the character zero); fuel-based recursion, exact for fuel at least n. -/
def decRepAux : Nat → Nat → List Nat
  | 0, _ => []
  | _ + 1, 0 => []
  | fuel + 1, m => decRepAux fuel (m / 10) ++ [m % 10 + 48]

/-- The decimal digit characters operator<< writes for a non-negative
int value, as byte values. -/
def decRep (n : Nat) : List Nat :=
  if n = 0 then [48] else decRepAux n n

/-- The cell characters of one output row of Zoo::save_ascii.  The inner
loop of the source runs x from 0 to grid.get_height() (not get_width()),
reading with the bounds-checked get, which throws (none) as soon as x
reaches the width; the loop is embedded by the remaining iteration count
r, with x + r equal to the bound at entry.  A cell prints as 35 (hash)
when ALIVE, otherwise — only DEAD remains — as 32 (space). -/
def saveRowAux (g : Grid) (y : Nat) : Nat → Nat → Option (List Nat)
  | _, 0 => some []
  | x, r + 1 =>
    match g.get x y with
    | none => none
    | some c =>
      match saveRowAux g y (x + 1) r with
      | none => none
      | some rest => some ((if c = ALIVE then 35 else 32) :: rest)

/-- The output rows of Zoo::save_ascii: one per y in the current height,
each terminated by a newline (10). -/
def saveRowsAux (g : Grid) : Nat → Nat → Option (List Nat)
  | _, 0 => some []
  | y, r + 1 =>
    match saveRowAux g y 0 g.height with
    | none => none
    | some row =>
      match saveRowsAux g (y + 1) r with
      | none => none
      | some rest => some (row ++ 10 :: rest)

/-- Zoo::save_ascii(path, grid) as the byte sequence written to an
openable destination: the header line "width height" followed by the
rows; none models the exception thrown from the bounds-checked get when
the inner loop bound (the height) exceeds the width. -/
def save_ascii (g : Grid) : Option (List Nat) :=
  match saveRowsAux g 0 g.height with
  | none => none
  | some body => some (decRep g.width ++ 32 :: decRep g.height ++ 10 :: body)

/-- istream::get on the byte contents of an openable file: the byte at
the position, or -1 (EOF, as stored into a char) past the end. -/
def fget (file : List Nat) (pos : Nat) : Int :=
  if pos < file.length then (file.getD pos 0 : Int) else -1

/-- The cell-reading loop of Zoo::load_ascii for one row: each character
must be 35 (hash, set ALIVE) or 32 (space, set DEAD); anything else
throws (none).  x is the current column, r the remaining columns, pos the
current stream position; the final position is returned. -/
def loadCellsAux (file : List Nat) (y : Nat) :
    Nat → Nat → Nat → Grid → Option (Grid × Nat)
  | _, 0, pos, g => some (g, pos)
  | x, r + 1, pos, g =>
    if fget file pos = 35 then loadCellsAux file y (x + 1) r (pos + 1) (g.set x y ALIVE)
    else if fget file pos = 32 then loadCellsAux file y (x + 1) r (pos + 1) (g.set x y DEAD)
    else none

/-- The row loop of Zoo::load_ascii: after each row of w cell characters
the next character must be a newline (10), otherwise the source throws. -/
def loadRowsAux (file : List Nat) (w : Nat) :
    Nat → Nat → Nat → Grid → Option Grid
  | _, 0, _, g => some g
  | y, r + 1, pos, g =>
    match loadCellsAux file y 0 w pos g with
    | none => none
    | some (g', pos') =>
      if fget file pos' = 10 then loadRowsAux file w (y + 1) r (pos' + 1) g'
      else none

/-- Zoo::load_ascii(path) on the byte contents of an openable file.  The
width and the height are each read as a SINGLE character (positions 0 and
2) and converted by subtracting 48; the characters at positions 1 and 3
are consumed without any check.  A negative width or height throws
(none); otherwise the default-constructed 0x0 grid is resized and the
rows are parsed from position 4. -/
def load_ascii (file : List Nat) : Option Grid :=
  let width := fget file 0 - 48
  let height := fget file 2 - 48
  if width < 0 ∨ height < 0 then none
  else loadRowsAux file width.toNat 0 height.toNat 4
    ((Grid.ofSize 0 0).resize width.toNat height.toNat)

end Zoo

/-- Claim-side definition: the body save_ascii is claimed to produce —
exactly height lines, each of exactly width cell characters (35 for
ALIVE, 32 for DEAD) terminated by a newline. -/
def specAsciiBody (g : Grid) : List Nat :=
  ((List.range g.height).map (fun y =>
    ((List.range g.width).map (fun x => if g.cellAt x y = ALIVE then 35 else 32))
      ++ [10])).flatten

theorem decRep_single (n : Nat) (h : n ≤ 9) : Zoo.decRep n = [n + 48] := by
  interval_cases n <;> rfl

theorem saveRowAux_eq (g : Grid) (y : Nat) (hy : y < g.height) :
    ∀ (r x : Nat), x + r ≤ g.width →
      Zoo.saveRowAux g y x r =
        some ((List.range' x r).map
          (fun x' => if g.cellAt x' y = ALIVE then 35 else 32)) := by
  intro r
  induction r with
  | zero => intro x hx; rfl
  | succ m ih =>
    intro x hx
    have hxw : x < g.width := by omega
    rw [Zoo.saveRowAux, get_self g x y hxw hy, ih (x + 1) (by omega), List.range'_succ]
    rfl

theorem saveRowsAux_eq (g : Grid) (hhw : g.height ≤ g.width) :
    ∀ (r y : Nat), y + r ≤ g.height →
      Zoo.saveRowsAux g y r =
        some (((List.range' y r).map (fun y' =>
          ((List.range g.height).map
            (fun x' => if g.cellAt x' y' = ALIVE then 35 else 32)) ++ [10])).flatten) := by
  intro r
  induction r with
  | zero => intro y _; rfl
  | succ m ih =>
    intro y hyr
    rw [Zoo.saveRowsAux, saveRowAux_eq g y (by omega) g.height 0 (by omega),
      ih (y + 1) (by omega), List.range'_succ]
    rw [List.range_eq_range']
    simp

theorem save_ascii_square (g : Grid) (hsq : g.width = g.height) (hd : g.width ≤ 9) :
    Zoo.save_ascii g =
      some ([g.width + 48, 32, g.height + 48, 10] ++ specAsciiBody g) := by
  unfold Zoo.save_ascii
  rw [saveRowsAux_eq g (le_of_eq hsq.symm) g.height 0 (by omega)]
  rw [decRep_single g.width hd, decRep_single g.height (hsq ▸ hd)]
  unfold specAsciiBody
  rw [hsq, List.range_eq_range']
  simp

theorem loadCellsAux_spec (file : List Nat) (s : Grid) (y : Nat) :
    ∀ (r x pos : Nat) (g : Grid),
      x + r ≤ g.width → y < g.height →
      (∀ k, k < r → Zoo.fget file (pos + k) =
        (if s.cellAt (x + k) y = ALIVE then (35 : Int) else 32)) →
      ∃ g', Zoo.loadCellsAux file y x r pos g = some (g', pos + r) ∧
        g'.width = g.width ∧ g'.height = g.height ∧
        ∀ a b, g'.cellAt a b =
          if b = y ∧ x ≤ a ∧ a < x + r then s.cellAt a y else g.cellAt a b := by
  intro r
  induction r with
  | zero =>
    intro x pos g hxw hy hchar
    refine ⟨g, rfl, rfl, rfl, ?_⟩
    intro a b
    rw [if_neg ?_]
    rintro ⟨-, h1, h2⟩
    omega
  | succ m ih =>
    intro x pos g hxw hy hchar
    have hchar0 := hchar 0 (by omega)
    simp only [Nat.add_zero] at hchar0
    have hstep : Zoo.loadCellsAux file y x (m + 1) pos g =
        Zoo.loadCellsAux file y (x + 1) m (pos + 1) (g.set x y (s.cellAt x y)) := by
      rw [Zoo.loadCellsAux]
      by_cases hca : s.cellAt x y = ALIVE
      · rw [if_pos (by rw [hchar0, if_pos hca]), hca]
      · have hcd : s.cellAt x y = DEAD := by
          cases hcc : s.cellAt x y
          · rfl
          · exact absurd hcc hca
        rw [if_neg (by rw [hchar0, if_neg hca]; decide),
          if_pos (by rw [hchar0, if_neg hca]), hcd]
    rw [hstep]
    obtain ⟨g', hcall, hw', hh', hcells⟩ := ih (x + 1) (pos + 1)
      (g.set x y (s.cellAt x y))
      (by simp only [Grid.width_set]; omega)
      (by simp only [Grid.height_set]; exact hy)
      (by
        intro k hk
        have hmain := hchar (k + 1) (by omega)
        rw [show pos + (k + 1) = pos + 1 + k by omega,
          show x + (k + 1) = x + 1 + k by omega] at hmain
        exact hmain)
    have hpp : pos + 1 + m = pos + (m + 1) := by omega
    refine ⟨g', by rw [hcall, hpp], by rw [hw']; simp, by rw [hh']; simp, ?_⟩
    intro a b
    rw [hcells a b]
    by_cases hreg : b = y ∧ x + 1 ≤ a ∧ a < x + 1 + m
    · rw [if_pos hreg, if_pos ⟨hreg.1, by omega, by omega⟩]
    · rw [if_neg hreg]
      by_cases hxy : a = x ∧ b = y
      · rw [hxy.1, hxy.2]
        rw [Grid.cellAt_set_self g x y _ (by omega) hy]
        rw [if_pos ⟨rfl, by omega, by omega⟩]
      · rw [Grid.cellAt_set_of_ne _ _ _ _ _ _ hxy]
        rw [if_neg ?_]
        rintro ⟨hb, hxa, har⟩
        apply hxy
        have hnot : ¬(x + 1 ≤ a ∧ a < x + 1 + m) := fun hc => hreg ⟨hb, hc⟩
        exact ⟨by omega, hb⟩

theorem loadRowsAux_spec (file : List Nat) (s : Grid) (w : Nat) :
    ∀ (r y pos : Nat) (g : Grid),
      w ≤ g.width → y + r ≤ g.height →
      (∀ k, k < r →
        (∀ j, j < w → Zoo.fget file (pos + k * (w + 1) + j) =
          (if s.cellAt j (y + k) = ALIVE then (35 : Int) else 32)) ∧
        Zoo.fget file (pos + k * (w + 1) + w) = 10) →
      ∃ g', Zoo.loadRowsAux file w y r pos g = some g' ∧
        g'.width = g.width ∧ g'.height = g.height ∧
        ∀ a b, g'.cellAt a b =
          if y ≤ b ∧ b < y + r ∧ a < w then s.cellAt a b else g.cellAt a b := by
  intro r
  induction r with
  | zero =>
    intro y pos g hww hyr hrows
    refine ⟨g, rfl, rfl, rfl, ?_⟩
    intro a b
    rw [if_neg ?_]
    rintro ⟨h1, h2, -⟩
    omega
  | succ m ih =>
    intro y pos g hww hyr hrows
    have hrow0 := hrows 0 (by omega)
    simp only [Nat.zero_mul, Nat.add_zero] at hrow0
    obtain ⟨g1, hcall1, hw1, hh1, hcells1⟩ := loadCellsAux_spec file s y w 0 pos g
      (by omega) (by omega)
      (by
        intro k hk
        have h0 := hrow0.1 k hk
        rw [Nat.zero_add]
        exact h0)
    rw [Zoo.loadRowsAux, hcall1]
    dsimp only
    rw [if_pos hrow0.2]
    obtain ⟨g', hcall2, hw2, hh2, hcells2⟩ := ih (y + 1) (pos + w + 1) g1
      (by rw [hw1]; exact hww) (by rw [hh1]; omega)
      (by
        intro k hk
        have hdist : (k + 1) * (w + 1) = k * (w + 1) + (w + 1) := by ring
        have hmain := hrows (k + 1) (by omega)
        constructor
        · intro j hj
          have h1 := hmain.1 j hj
          rw [show pos + (k + 1) * (w + 1) + j = pos + w + 1 + k * (w + 1) + j by omega,
            show y + (k + 1) = y + 1 + k by omega] at h1
          exact h1
        · have h2 := hmain.2
          rw [show pos + (k + 1) * (w + 1) + w = pos + w + 1 + k * (w + 1) + w by omega]
            at h2
          exact h2)
    refine ⟨g', hcall2, by rw [hw2, hw1], by rw [hh2, hh1], ?_⟩
    intro a b
    rw [hcells2 a b, hcells1 a b]
    by_cases hreg2 : y + 1 ≤ b ∧ b < y + 1 + m ∧ a < w
    · rw [if_pos hreg2, if_pos ⟨by omega, by omega, by omega⟩]
    · rw [if_neg hreg2]
      by_cases hreg1 : b = y ∧ 0 ≤ a ∧ a < 0 + w
      · rw [if_pos hreg1, hreg1.1, if_pos ⟨by omega, by omega, by omega⟩]
      · rw [if_neg hreg1, if_neg ?_]
        rintro ⟨h1, h2, h3⟩
        rcases Nat.eq_or_lt_of_le h1 with hb | hb
        · exact hreg1 ⟨hb.symm, by omega, by omega⟩
        · exact hreg2 ⟨by omega, by omega, h3⟩

theorem flatten_length_const (len : Nat) :
    ∀ (L : List (List Nat)), (∀ l ∈ L, l.length = len) →
      L.flatten.length = L.length * len := by
  intro L
  induction L with
  | nil => intro _; simp
  | cons l L ih =>
    intro hlen
    rw [List.flatten_cons, List.length_append, hlen l (by simp),
      ih (fun l' hl' => hlen l' (by simp [hl'])), List.length_cons]
    ring

theorem flatten_getD (len : Nat) :
    ∀ (L : List (List Nat)), (∀ l ∈ L, l.length = len) →
      ∀ (k j : Nat), k < L.length → j < len →
        L.flatten.getD (k * len + j) 0 = (L.getD k []).getD j 0 := by
  intro L
  induction L with
  | nil =>
    intro _ k j hk _
    simp at hk
  | cons l L ih =>
    intro hlen k j hk hj
    rw [List.flatten_cons]
    cases k with
    | zero =>
      rw [Nat.zero_mul, Nat.zero_add,
        List.getD_append _ _ _ _ (by rw [hlen l (by simp)]; exact hj)]
      rfl
    | succ k' =>
      have hdd : (k' + 1) * len + j = l.length + (k' * len + j) := by
        rw [hlen l (by simp)]
        ring
      rw [hdd, List.getD_append_right _ _ _ _ (by omega),
        show l.length + (k' * len + j) - l.length = k' * len + j by omega,
        ih (fun l' hl' => hlen l' (by simp [hl'])) k' j (by simpa using hk) hj]
      rfl

theorem specAsciiBody_length (g : Grid) :
    (specAsciiBody g).length = g.height * (g.width + 1) := by
  unfold specAsciiBody
  rw [flatten_length_const (g.width + 1) _ ?_]
  · simp
  · intro l hl
    obtain ⟨y, hy, rfl⟩ := List.mem_map.mp hl
    simp

theorem specAsciiBody_getD (g : Grid) (k j : Nat) (hk : k < g.height)
    (hj : j < g.width + 1) :
    (specAsciiBody g).getD (k * (g.width + 1) + j) 0 =
      if j < g.width then (if g.cellAt j k = ALIVE then 35 else 32) else 10 := by
  unfold specAsciiBody
  rw [flatten_getD (g.width + 1) _ ?_ k j (by simpa using hk) hj]
  · rw [getD_map_range _ _ _ hk]
    by_cases hjw : j < g.width
    · rw [if_pos hjw, List.getD_append _ _ _ _ (by simpa using hjw),
        getD_map_range _ _ _ hjw]
    · rw [if_neg hjw]
      have hjq : j = g.width := by omega
      rw [List.getD_append_right _ _ _ _ (by simp [hjq]), hjq]
      simp
  · intro l hl
    obtain ⟨y, hy, rfl⟩ := List.mem_map.mp hl
    simp

/-- C4 (amended): for every square grid with single-digit dimensions
(width = height at most 9), save_ascii writes the header line
"width height" followed by exactly height lines of exactly width cell
characters each, newline-terminated (specAsciiBody), and load_ascii on
that output returns a grid with the same width, height and cell values.
(Non-square grids break the round trip because save_ascii's inner loop
runs to the height instead of the width; dimensions of 10 or more break
it because load_ascii parses each dimension as a single character.) -/
theorem claim_C4_ascii_roundtrip (g : Grid) (hsq : g.width = g.height)
    (hd : g.width ≤ 9) :
    Zoo.save_ascii g =
      some ([g.width + 48, 32, g.height + 48, 10] ++ specAsciiBody g) ∧
    ∃ g', Zoo.load_ascii ([g.width + 48, 32, g.height + 48, 10] ++ specAsciiBody g)
        = some g' ∧
      g'.width = g.width ∧ g'.height = g.height ∧
      ∀ x y, x < g.width → y < g.height → g'.cellAt x y = g.cellAt x y := by
  refine ⟨save_ascii_square g hsq hd, ?_⟩
  have hlen4 : ([g.width + 48, 32, g.height + 48, 10] : List Nat).length = 4 := rfl
  have hflen : ([g.width + 48, 32, g.height + 48, 10] ++ specAsciiBody g).length =
      4 + g.height * (g.width + 1) := by
    rw [List.length_append, hlen4, specAsciiBody_length]
  have hfget_in : ∀ pos : Nat, pos < 4 + g.height * (g.width + 1) →
      Zoo.fget ([g.width + 48, 32, g.height + 48, 10] ++ specAsciiBody g) pos =
        ((([g.width + 48, 32, g.height + 48, 10] ++ specAsciiBody g).getD pos 0 : Nat)
          : Int) := by
    intro pos hpos
    unfold Zoo.fget
    rw [if_pos (by rw [hflen]; exact hpos)]
  have hW : Zoo.fget ([g.width + 48, 32, g.height + 48, 10] ++ specAsciiBody g) 0 - 48 =
      ((g.width : Nat) : Int) := by
    rw [hfget_in 0 (by omega),
      show ([g.width + 48, 32, g.height + 48, 10] ++ specAsciiBody g).getD 0 0 =
        g.width + 48 from rfl]
    push_cast
    ring
  have hH : Zoo.fget ([g.width + 48, 32, g.height + 48, 10] ++ specAsciiBody g) 2 - 48 =
      ((g.height : Nat) : Int) := by
    rw [hfget_in 2 (by omega),
      show ([g.width + 48, 32, g.height + 48, 10] ++ specAsciiBody g).getD 2 0 =
        g.height + 48 from rfl]
    push_cast
    ring
  unfold Zoo.load_ascii
  dsimp only
  rw [hW, hH, if_neg (by omega), Int.toNat_natCast, Int.toNat_natCast]
  obtain ⟨g', hcall, hw', hh', hcells⟩ :=
    loadRowsAux_spec ([g.width + 48, 32, g.height + 48, 10] ++ specAsciiBody g) g
      g.width g.height 0 4 ((Grid.ofSize 0 0).resize g.width g.height)
      (by rw [(Grid.dims_resize _ _ _).1])
      (by rw [(Grid.dims_resize _ _ _).2]; omega)
      (by
        intro k hk
        constructor
        · intro j hj
          have hbound := cell_index_lt (g.width + 1) g.height j k (by omega) hk
          rw [hfget_in _ (by omega),
            List.getD_append_right _ _ _ _ (by rw [hlen4]; omega),
            hlen4, show 4 + k * (g.width + 1) + j - 4 = k * (g.width + 1) + j by omega,
            specAsciiBody_getD g k j hk (by omega), if_pos hj]
          simp only [Nat.zero_add]
          split <;> rfl
        · have hbound := cell_index_lt (g.width + 1) g.height g.width k (by omega) hk
          rw [hfget_in _ (by omega),
            List.getD_append_right _ _ _ _ (by rw [hlen4]; omega),
            hlen4,
            show 4 + k * (g.width + 1) + g.width - 4 = k * (g.width + 1) + g.width
              by omega,
            specAsciiBody_getD g k g.width hk (by omega), if_neg (by omega)]
          rfl)
  refine ⟨g', hcall, ?_, ?_, ?_⟩
  · rw [hw', (Grid.dims_resize _ _ _).1]
  · rw [hh', (Grid.dims_resize _ _ _).2]
  · intro x y hx hy
    rw [hcells x y, if_pos ⟨by omega, by omega, hx⟩]

/-- Witness for C4 on a concrete 3x3 square grid with one ALIVE cell. -/
theorem claim_C4_ascii_roundtrip_witness :
    ((Grid.ofSize 3 3).set 1 1 ALIVE).width = ((Grid.ofSize 3 3).set 1 1 ALIVE).height ∧
    ((Grid.ofSize 3 3).set 1 1 ALIVE).width ≤ 9 ∧
    (Zoo.save_ascii ((Grid.ofSize 3 3).set 1 1 ALIVE) =
      some ([((Grid.ofSize 3 3).set 1 1 ALIVE).width + 48, 32,
        ((Grid.ofSize 3 3).set 1 1 ALIVE).height + 48, 10] ++
        specAsciiBody ((Grid.ofSize 3 3).set 1 1 ALIVE)) ∧
    ∃ g', Zoo.load_ascii ([((Grid.ofSize 3 3).set 1 1 ALIVE).width + 48, 32,
        ((Grid.ofSize 3 3).set 1 1 ALIVE).height + 48, 10] ++
        specAsciiBody ((Grid.ofSize 3 3).set 1 1 ALIVE)) = some g' ∧
      g'.width = ((Grid.ofSize 3 3).set 1 1 ALIVE).width ∧
      g'.height = ((Grid.ofSize 3 3).set 1 1 ALIVE).height ∧
      ∀ x y, x < ((Grid.ofSize 3 3).set 1 1 ALIVE).width →
        y < ((Grid.ofSize 3 3).set 1 1 ALIVE).height →
        g'.cellAt x y = ((Grid.ofSize 3 3).set 1 1 ALIVE).cellAt x y) :=
  ⟨by decide, by decide,
    claim_C4_ascii_roundtrip ((Grid.ofSize 3 3).set 1 1 ALIVE) (by decide) (by decide)⟩

/-- Counterexample for C4 as stated: on the non-square 2x1 all-DEAD grid
the save/load round trip yields no grid at all — save_ascii writes only
height = 1 cell character into the single row (its inner loop bound is
the height), so load_ascii, expecting width = 2 characters, hits the
newline early and fails. -/
theorem claim_C4_ascii_roundtrip_cx :
    (Zoo.save_ascii (Grid.ofSize 2 1)).bind Zoo.load_ascii = none := rfl
